import Mathlib

/-!
# Verification of the halooglasi-scraper core against its specification

Shallow embedding of the repository's pure core:

* `src/rater.js` — the rating engine (`rateListings`, `percentile`);
* `src/unnamed/part_000` — a second variant of the rating engine with
  richer human-readable justifications (Serbian text, pros/cons lists);
* `src/scraper.js` — the pure helpers of the crawler (`deduplicate`,
  `getTotalPages`, `parseSqm`).

JavaScript numbers are modelled as exact rationals (`ℚ`); a nullable
number is `Option ℚ` and JS truthiness of such a value is
"present and nonzero".  `NaN` is modelled where it can actually arise
(`parseSqm`) via an explicit three-way result type.  DOM queries
performed through cheerio are not computable from the raw HTML string,
so the functions that use them take the query results (lists of `href`
attributes / text contents) as explicit arguments; the regular
expressions that the source applies to plain strings are modelled
directly on the string.
-/

/-! ## JavaScript number helpers -/

/-- JS truthiness of a nullable number: non-null and nonzero.
(`NaN` never occurs in the values this model feeds to these tests.) -/
def jsTruthy : Option ℚ → Bool
  | none => false
  | some q => decide (q ≠ 0)

/-- The filter used by the rater for usable prices / price-per-sqm:
`l.x && l.x > 0`, i.e. truthy and positive, which collapses to `0 < q`. -/
def jsPos : Option ℚ → Bool
  | none => false
  | some q => decide (0 < q)

/-- `Math.round`: rounds half-way cases toward `+∞`. -/
def jsRound (q : ℚ) : ℤ := ⌊q + 1/2⌋

/-! ## `percentile` (src/rater.js lines 147–154, identical in part_000)

```js
function percentile(sorted, p) {
  if (!sorted.length) return 0;
  const idx = (p / 100) * (sorted.length - 1);
  const lower = Math.floor(idx);
  const upper = Math.ceil(idx);
  if (lower === upper) return sorted[lower];
  return sorted[lower] + (sorted[upper] - sorted[lower]) * (idx - lower);
}
```
For `p ∈ [0, 100]` the computed indices are always in range, which is the
only regime the program uses; the out-of-range JS access (`undefined`) is
not modelled, list access uses `getD _ 0`. -/
def percentile (sorted : List ℚ) (p : ℚ) : ℚ :=
  if sorted.length = 0 then 0
  else
    let idx : ℚ := (p / 100) * ((sorted.length : ℚ) - 1)
    let lower : ℤ := ⌊idx⌋
    let upper : ℤ := ⌈idx⌉
    if lower = upper then sorted.getD lower.toNat 0
    else sorted.getD lower.toNat 0 +
      (sorted.getD upper.toNat 0 - sorted.getD lower.toNat 0) * (idx - lower)

/-! ## `Array.prototype.sort` with a JS comparator

ECMAScript (2019 and later) specifies `Array.prototype.sort` as stable;
it is modelled as a stable insertion sort: an element is inserted before
the first element the comparator orders strictly after it.  For a
consistent comparator this is the unique stable sort.  (The rater's
listing comparator is *not* consistent for mixed presence of
`pricePerSqm`/`price`, which is exactly what claim C2's counterexample
exploits; there the constraints the claim imposes are cyclic, so the
refutation is independent of which permutation the engine returns.) -/
def insertByCmp (cmp : α → α → ℚ) (x : α) : List α → List α
  | [] => [x]
  | y :: ys => if cmp x y ≤ 0 then x :: y :: ys else y :: insertByCmp cmp x ys

/-- Stable sort by a JS numeric comparator. -/
def jsSortBy (cmp : α → α → ℚ) : List α → List α
  | [] => []
  | x :: xs => insertByCmp cmp x (jsSortBy cmp xs)

/-- The numeric ascending comparator `(a, b) => a - b`. -/
def numCmp (a b : ℚ) : ℚ := a - b

/-! ## Data model -/

/-- A harvested listing, as produced by `parseListings` (src/scraper.js).
Nullable numeric fields are `Option ℚ`; `rooms` is a raw string or null. -/
structure Listing where
  id : String
  title : String := ""
  link : String := ""
  price : Option ℚ := none
  pricePerSqm : Option ℚ := none
  sqm : Option ℚ := none
  landSqm : Option ℚ := none
  rooms : Option String := none
  image : String := ""
  imgCount : ℕ := 0
  location : String := ""
  neighborhood : String := ""
  slug : String := ""
deriving DecidableEq, Repr

/-- Rated listing produced by `rateListings` in src/rater.js: the input
listing spread together with `rating`, `label`, `ratingReason` and
`medianPPS`.  On the no-price-data early return the JS object carries no
`medianPPS` key; that absence is `none`. -/
structure RatedListing extends Listing where
  rating : ℤ
  label : String
  ratingReason : String
  medianPPS : Option ℤ := none
deriving DecidableEq, Repr

/-- Rated listing produced by the part_000 variant: additionally carries
`ratingPros`/`ratingCons` (absent, i.e. `none`, on the no-data path). -/
structure RatedListing2 extends Listing where
  rating : ℤ
  label : String
  ratingReason : String
  ratingPros : Option (List String) := none
  ratingCons : Option (List String) := none
  medianPPS : Option ℤ := none
deriving DecidableEq, Repr

/-- Per-neighborhood statistics record (`{ median, p25, count }`). -/
structure NbStats where
  median : ℚ
  p25 : ℚ
  count : ℕ
deriving DecidableEq, Repr

/-! ## Shared statistics of the two rater variants

Lines 16–49 of src/rater.js and of src/unnamed/part_000 are textually
identical, so both embeddings share these definitions.  (The unused
locals `p25PPS`, `p10PPS`, `p75PPS` of the source are dead code and have
no observable effect.) -/

/-- `listings.filter(l => l.price && l.price > 0)` -/
def withPriceOf (listings : List Listing) : List Listing :=
  listings.filter (fun l => jsPos l.price)

/-- `listings.filter(l => l.pricePerSqm && l.pricePerSqm > 0)` -/
def withPPSOf (listings : List Listing) : List Listing :=
  listings.filter (fun l => jsPos l.pricePerSqm)

/-- `withPPS.map(l => l.pricePerSqm).sort((a, b) => a - b)` -/
def allPPSOf (listings : List Listing) : List ℚ :=
  jsSortBy numCmp ((withPPSOf listings).map (fun l => l.pricePerSqm.getD 0))

/-- `allPPS.length ? percentile(allPPS, 50) : null` -/
def medianPPSOf (listings : List Listing) : Option ℚ :=
  if allPPSOf listings = [] then none else some (percentile (allPPSOf listings) 50)

/-- `withPrice.map(l => l.price).sort((a, b) => a - b)` -/
def allPricesOf (listings : List Listing) : List ℚ :=
  jsSortBy numCmp ((withPriceOf listings).map (fun l => l.price.getD 0))

/-- `percentile(allPrices, 50)` -/
def medianPriceOf (listings : List Listing) : ℚ :=
  percentile (allPricesOf listings) 50

/-- The `neighborhoodStats` object: a key is present exactly when some
listing with positive `pricePerSqm` has that neighborhood; its value
holds the median / 25th percentile / count of those values (sorted
ascending before taking percentiles, as in the source). -/
def nbStatsOf (listings : List Listing) (n : String) : Option NbStats :=
  let vals := ((withPPSOf listings).filter (fun l => l.neighborhood = n)).map
    (fun l => l.pricePerSqm.getD 0)
  if vals = [] then none
  else
    let s := jsSortBy numCmp vals
    some ⟨percentile s 50, percentile s 25, vals.length⟩

/-! ## The scoring ladders (identical in both variants) -/

/-- The price-per-sqm ratio ladder (src/rater.js lines 59–89,
part_000 lines 61–107; the score assignments are identical). -/
def ppsLadder (ratio : ℚ) : ℤ :=
  if ratio ≤ 0.4 then 10
  else if ratio ≤ 0.55 then 9
  else if ratio ≤ 0.7 then 8
  else if ratio ≤ 0.85 then 7
  else if ratio ≤ 1.0 then 6
  else if ratio ≤ 1.15 then 5
  else if ratio ≤ 1.3 then 4
  else if ratio ≤ 1.5 then 3
  else if ratio ≤ 1.8 then 2
  else 1

/-- The total-price fallback ladder (src/rater.js lines 103–108,
part_000 lines 120–125). -/
def priceLadder (ratio : ℚ) : ℤ :=
  if ratio ≤ 0.5 then 8
  else if ratio ≤ 0.75 then 7
  else if ratio ≤ 1.0 then 6
  else if ratio ≤ 1.25 then 5
  else if ratio ≤ 1.5 then 4
  else 3

/-! ## Scores

The branch structure below mirrors the source's `score` mutations; the
string-building statements of the source are side-effect free, so the
score can be computed separately from the justification text. -/

/-- The final (clamped) score assigned by src/rater.js to one listing. -/
def score1 (medianPPS : Option ℚ) (medianPrice : ℚ) (nb : String → Option NbStats)
    (l : Listing) : ℤ :=
  let base : ℤ :=
    if jsPos l.pricePerSqm && jsTruthy medianPPS then
      let ratio := l.pricePerSqm.getD 0 / medianPPS.getD 0
      let s := ppsLadder ratio
      -- Bonus: compare to neighborhood median
      match nb l.neighborhood with
      | some st =>
          if st.median ≠ 0 then
            if l.pricePerSqm.getD 0 / st.median ≤ 0.6 then min 10 (s + 1) else s
          else s
      | none => s
    else if jsTruthy l.price && decide (medianPrice ≠ 0) then
      -- Fallback: rate by total price only
      priceLadder (l.price.getD 0 / medianPrice)
    else 5
  -- Bonus for having large land
  let withLand : ℤ :=
    if jsTruthy l.landSqm && decide (500 < l.landSqm.getD 0) && jsTruthy l.price then
      if l.price.getD 0 / l.landSqm.getD 0 < 100 then min 10 (base + 1) else base
    else base
  max 1 (min 10 withLand)

/-- The final (clamped) score assigned by src/unnamed/part_000 to one
listing.  Its extra branches (`nRatio ≤ 0.85`, `nRatio > 1.2`, the
`landSqm > 800` arms, the sqm/price context notes) only push strings and
leave the score unchanged; they are kept here as explicit no-ops. -/
def score2 (medianPPS : Option ℚ) (medianPrice : ℚ) (nb : String → Option NbStats)
    (l : Listing) : ℤ :=
  let base : ℤ :=
    if jsPos l.pricePerSqm && jsTruthy medianPPS then
      let ratio := l.pricePerSqm.getD 0 / medianPPS.getD 0
      let s := ppsLadder ratio
      match nb l.neighborhood with
      | some st =>
          if st.median ≠ 0 then
            let nRatio := l.pricePerSqm.getD 0 / st.median
            if nRatio ≤ 0.6 then min 10 (s + 1)
            else if nRatio ≤ 0.85 then s
            else if 1.2 < nRatio then s
            else s
          else s
      | none => s
    else if jsTruthy l.price && decide (medianPrice ≠ 0) then
      priceLadder (l.price.getD 0 / medianPrice)
    else 5
  let withLand : ℤ :=
    if jsTruthy l.landSqm && decide (500 < l.landSqm.getD 0) && jsTruthy l.price then
      if l.price.getD 0 / l.landSqm.getD 0 < 100 then min 10 (base + 1)
      else if 800 < l.landSqm.getD 0 then base
      else base
    else if jsTruthy l.landSqm && decide (800 < l.landSqm.getD 0) then base
    else base
  max 1 (min 10 withLand)

/-! ## Justification text of src/rater.js -/

/-- The `reasons` array accumulated by src/rater.js for one listing. -/
def reasons1 (medianPPS : Option ℚ) (medianPrice : ℚ) (nb : String → Option NbStats)
    (l : Listing) : List String :=
  let main : List String :=
    if jsPos l.pricePerSqm && jsTruthy medianPPS then
      let ratio := l.pricePerSqm.getD 0 / medianPPS.getD 0
      let pct := toString (jsRound ((1 - ratio) * 100))
      let ladderReason : String :=
        if ratio ≤ 0.4 then "€/m² is " ++ pct ++ "% below median"
        else if ratio ≤ 0.55 then "€/m² is " ++ pct ++ "% below median"
        else if ratio ≤ 0.7 then "€/m² is " ++ pct ++ "% below median"
        else if ratio ≤ 0.85 then "€/m² well below median"
        else if ratio ≤ 1.0 then "€/m² slightly below median"
        else if ratio ≤ 1.15 then "€/m² near median"
        else if ratio ≤ 1.3 then "€/m² above median"
        else if ratio ≤ 1.5 then "€/m² well above median"
        else if ratio ≤ 1.8 then "€/m² significantly above median"
        else "€/m² far above median"
      let nbReason : List String :=
        match nb l.neighborhood with
        | some st =>
            if st.median ≠ 0 then
              if l.pricePerSqm.getD 0 / st.median ≤ 0.6 then
                ["Best price in " ++ l.neighborhood]
              else []
            else []
        | none => []
      ladderReason :: nbReason
    else if jsTruthy l.price && decide (medianPrice ≠ 0) then
      ["Rated by total price (no m² data)"]
    else
      ["Insufficient price data"]
  let landReason : List String :=
    if jsTruthy l.landSqm && decide (500 < l.landSqm.getD 0) && jsTruthy l.price then
      if l.price.getD 0 / l.landSqm.getD 0 < 100 then ["Large land at low price"] else []
    else []
  main ++ landReason

/-- One listing rated by src/rater.js (the object literal of lines
127–133): the spread input plus `rating`, `label`, `ratingReason`
(`reasons.join('. ')`) and `medianPPS` (`Math.round(medianPPS || 0)`;
`medianPPS || 0` is `medianPPS.getD 0` because `some 0` is falsy). -/
def rateOne (medianPPS : Option ℚ) (medianPrice : ℚ) (nb : String → Option NbStats)
    (l : Listing) : RatedListing :=
  { toListing := l
    rating := score1 medianPPS medianPrice nb l
    label := if 9 ≤ score1 medianPPS medianPrice nb l then "MUST BUY" else ""
    ratingReason := String.intercalate ". " (reasons1 medianPPS medianPrice nb l)
    medianPPS := some (jsRound (medianPPS.getD 0)) }

/-- The final comparator of src/rater.js lines 137–142 (and part_000
lines 175–180):

```js
rated.sort((a, b) => {
  if (b.rating !== a.rating) return b.rating - a.rating;
  if (a.pricePerSqm && b.pricePerSqm) return a.pricePerSqm - b.pricePerSqm;
  if (a.price && b.price) return a.price - b.price;
  return 0;
});
``` -/
def listingCmp (a b : RatedListing) : ℚ :=
  if b.rating ≠ a.rating then ((b.rating : ℚ) - (a.rating : ℚ))
  else if jsTruthy a.pricePerSqm && jsTruthy b.pricePerSqm then
    a.pricePerSqm.getD 0 - b.pricePerSqm.getD 0
  else if jsTruthy a.price && jsTruthy b.price then
    a.price.getD 0 - b.price.getD 0
  else 0

/-- The no-price-data early return of src/rater.js line 20. -/
def noData1 (l : Listing) : RatedListing :=
  { toListing := l
    rating := 5
    label := ""
    ratingReason := "No price data available for comparison"
    medianPPS := none }

/-- The per-listing rated sequence of src/rater.js in input order
(`listings.map(listing => ...)`), before the final sort. -/
def ratedSeq (listings : List Listing) : List RatedListing :=
  listings.map (rateOne (medianPPSOf listings) (medianPriceOf listings) (nbStatsOf listings))

/-- `rateListings` of src/rater.js. -/
def rateListings (listings : List Listing) : List RatedListing :=
  if listings.length = 0 then []
  else if (withPriceOf listings).length = 0 then listings.map noData1
  else jsSortBy listingCmp (ratedSeq listings)

/-! ## Number-to-text helpers used by part_000's justification strings

The part_000 variant interpolates raw numbers (`${listing.pricePerSqm}`)
and locale-formatted prices (`price.toLocaleString('de-DE')`) into its
strings.  Under the exact-rational model of JS numbers these renderings
are reproduced exactly for values whose decimal expansion terminates
within 17 digits (all realistic listing data); no theorem depends on
these strings. -/

/-- Decimal digits of the fractional part `r/d` (with `r < d`), up to
`fuel` digits. -/
def fracDigits : ℕ → ℕ → ℕ → String
  | 0, _, _ => ""
  | _, 0, _ => ""
  | fuel + 1, r, d =>
    let r10 := r * 10
    toString (r10 / d) ++ fracDigits fuel (r10 % d) d

/-- JS default number-to-string conversion (template-literal
interpolation). -/
def jsNumToString (q : ℚ) : String :=
  let sign := if q < 0 then "-" else ""
  let a := |q|
  let ip : ℕ := (⌊a⌋).toNat
  let frac : ℚ := a - (ip : ℚ)
  sign ++ toString ip ++
    (if frac = 0 then "" else "." ++ fracDigits 17 frac.num.toNat frac.den)

/-- Round half away from zero (the `Intl` default rounding). -/
def jsHalfExpand (q : ℚ) : ℤ :=
  if 0 ≤ q then ⌊q + 1/2⌋ else -⌊-q + 1/2⌋

/-- Insert a `'.'` after every third digit of a reversed digit list. -/
def groupRev : List Char → ℕ → List Char
  | [], _ => []
  | c :: cs, i =>
    if i ≠ 0 ∧ i % 3 = 0 then '.' :: c :: groupRev cs (i + 1)
    else c :: groupRev cs (i + 1)

/-- `Number.prototype.toLocaleString('de-DE')`: grouping dots every three
integer digits, decimal comma, at most three fraction digits (trailing
zeros stripped), half-away-from-zero rounding. -/
def toLocaleStringDeDE (q : ℚ) : String :=
  let sign := if q < 0 then "-" else ""
  let n : ℕ := (jsHalfExpand (|q| * 1000)).toNat
  let ip : ℕ := n / 1000
  let fr : ℕ := n % 1000
  let grouped := String.mk ((groupRev (toString ip).toList.reverse 0).reverse)
  let fr3 := (if fr < 10 then "00" else if fr < 100 then "0" else "") ++ toString fr
  let frStripped := String.mk (fr3.toList.reverse.dropWhile (· = '0')).reverse
  sign ++ grouped ++ (if fr = 0 then "" else "," ++ frStripped)

/-! ## Justification text of src/unnamed/part_000 -/

/-- `mainReason` of the part_000 variant. -/
def mainReason2 (medianPPS : Option ℚ) (medianPrice : ℚ) (l : Listing) : String :=
  if jsPos l.pricePerSqm && jsTruthy medianPPS then
    let ratio := l.pricePerSqm.getD 0 / medianPPS.getD 0
    let pctDiff := toString (jsRound (|1 - ratio| * 100))
    let pps := jsNumToString (l.pricePerSqm.getD 0)
    let med := toString (jsRound (medianPPS.getD 0))
    if ratio ≤ 0.4 then
      "Izuzetna cena: " ++ pps ++ " €/m² je " ++ pctDiff ++ "% ispod medijane (" ++ med ++ " €/m²)"
    else if ratio ≤ 0.55 then
      "Odlicna cena: " ++ pps ++ " €/m² je " ++ pctDiff ++ "% ispod medijane (" ++ med ++ " €/m²)"
    else if ratio ≤ 0.7 then
      "Vrlo dobra cena: " ++ pps ++ " €/m² je " ++ pctDiff ++ "% ispod medijane (" ++ med ++ " €/m²)"
    else if ratio ≤ 0.85 then
      "Dobra cena: " ++ pps ++ " €/m² je " ++ pctDiff ++ "% ispod medijane (" ++ med ++ " €/m²)"
    else if ratio ≤ 1.0 then
      "Solidna cena: " ++ pps ++ " €/m² je blizu medijane (" ++ med ++ " €/m²)"
    else if ratio ≤ 1.15 then
      "Prosecna cena: " ++ pps ++ " €/m² je blizu medijane (" ++ med ++ " €/m²)"
    else if ratio ≤ 1.3 then
      "Iznadprosecna cena: " ++ pps ++ " €/m² je " ++ pctDiff ++ "% iznad medijane (" ++ med ++ " €/m²)"
    else if ratio ≤ 1.5 then
      "Skupa: " ++ pps ++ " €/m² je " ++ pctDiff ++ "% iznad medijane (" ++ med ++ " €/m²)"
    else if ratio ≤ 1.8 then
      "Vrlo skupa: " ++ pps ++ " €/m² je " ++ pctDiff ++ "% iznad medijane (" ++ med ++ " €/m²)"
    else
      "Preskupa: " ++ pps ++ " €/m² je " ++ pctDiff ++ "% iznad medijane (" ++ med ++ " €/m²)"
  else if jsTruthy l.price && decide (medianPrice ≠ 0) then
    "Ocenjeno po ukupnoj ceni (" ++ toLocaleStringDeDE (l.price.getD 0) ++
      " €) - nema podataka o kvadraturi"
  else
    "Nedovoljno podataka o ceni za ocenu"

/-- The `pros` array of the part_000 variant, in accumulation order
(ladder, neighborhood comparison, land, floor area, total price). -/
def pros2 (medianPPS : Option ℚ) (nb : String → Option NbStats) (l : Listing) :
    List String :=
  let ladderPros : List String :=
    if jsPos l.pricePerSqm && jsTruthy medianPPS then
      let ratio := l.pricePerSqm.getD 0 / medianPPS.getD 0
      if ratio ≤ 0.4 then ["Cena po m² daleko ispod proseka"]
      else if ratio ≤ 0.55 then ["Cena po m² znatno ispod proseka"]
      else if ratio ≤ 0.7 then ["Cena po m² znatno niza od proseka"]
      else if ratio ≤ 0.85 then ["Cena po m² ispod proseka"]
      else if ratio ≤ 1.0 then ["Cena blizu ili malo ispod proseka"]
      else []
    else []
  let nbPros : List String :=
    if jsPos l.pricePerSqm && jsTruthy medianPPS then
      match nb l.neighborhood with
      | some st =>
          if st.median ≠ 0 then
            let nRatio := l.pricePerSqm.getD 0 / st.median
            if nRatio ≤ 0.6 then
              ["Najbolja cena u " ++ l.neighborhood ++ " (prosek: " ++
                toString (jsRound st.median) ++ " €/m²)"]
            else if nRatio ≤ 0.85 then
              ["Ispod proseka za " ++ l.neighborhood ++ " (" ++
                toString (jsRound st.median) ++ " €/m²)"]
            else []
          else []
      | none => []
    else []
  let landPros : List String :=
    if jsTruthy l.landSqm && decide (500 < l.landSqm.getD 0) && jsTruthy l.price then
      if l.price.getD 0 / l.landSqm.getD 0 < 100 then
        ["Veliki plac (" ++ jsNumToString (l.landSqm.getD 0) ++ " m²) po niskoj ceni (" ++
          toString (jsRound (l.price.getD 0 / l.landSqm.getD 0)) ++ " €/m² zemljista)"]
      else if 800 < l.landSqm.getD 0 then
        ["Veliki plac od " ++ jsNumToString (l.landSqm.getD 0) ++ " m²"]
      else []
    else if jsTruthy l.landSqm && decide (800 < l.landSqm.getD 0) then
      ["Veliki plac od " ++ jsNumToString (l.landSqm.getD 0) ++ " m²"]
    else []
  let sqmPros : List String :=
    if jsTruthy l.sqm && decide (150 < l.sqm.getD 0) then
      ["Velika kuca (" ++ jsNumToString (l.sqm.getD 0) ++ " m²)"]
    else []
  let pricePros : List String :=
    if jsTruthy l.price && decide (l.price.getD 0 < 30000) then
      ["Niska ukupna cena (" ++ toLocaleStringDeDE (l.price.getD 0) ++ " €)"]
    else []
  ladderPros ++ nbPros ++ landPros ++ sqmPros ++ pricePros

/-- The `cons` array of the part_000 variant, in accumulation order. -/
def cons2 (medianPPS : Option ℚ) (medianPrice : ℚ) (nb : String → Option NbStats)
    (l : Listing) : List String :=
  let ladderCons : List String :=
    if jsPos l.pricePerSqm && jsTruthy medianPPS then
      let ratio := l.pricePerSqm.getD 0 / medianPPS.getD 0
      let pctDiff := toString (jsRound (|1 - ratio| * 100))
      if ratio ≤ 1.0 then []
      else if ratio ≤ 1.15 then ["Cena po m² na nivou proseka - nema ustede"]
      else if ratio ≤ 1.3 then ["Cena po m² iznad proseka za " ++ pctDiff ++ "%"]
      else if ratio ≤ 1.5 then ["Cena po m² znatno iznad proseka"]
      else if ratio ≤ 1.8 then ["Cena po m² mnogo iznad proseka"]
      else ["Cena po m² daleko iznad proseka"]
    else if jsTruthy l.price && decide (medianPrice ≠ 0) then
      ["Nema podataka o ceni po m² za preciznije poredjenje"]
    else
      ["Nema dovoljno podataka za poredjenje"]
  let nbCons : List String :=
    if jsPos l.pricePerSqm && jsTruthy medianPPS then
      match nb l.neighborhood with
      | some st =>
          if st.median ≠ 0 then
            let nRatio := l.pricePerSqm.getD 0 / st.median
            if nRatio ≤ 0.6 then []
            else if nRatio ≤ 0.85 then []
            else if 1.2 < nRatio then
              ["Iznad proseka za " ++ l.neighborhood ++ " (" ++
                toString (jsRound st.median) ++ " €/m²)"]
            else []
          else []
      | none => []
    else []
  let sqmCons : List String :=
    if jsTruthy l.sqm && decide (150 < l.sqm.getD 0) then []
    else if jsTruthy l.sqm && decide (l.sqm.getD 0 < 50) then
      ["Mala kuca (" ++ jsNumToString (l.sqm.getD 0) ++ " m²)"]
    else []
  let priceCons : List String :=
    if jsTruthy l.price && decide (l.price.getD 0 < 30000) then []
    else if jsTruthy l.price && decide (200000 < l.price.getD 0) then
      ["Visoka ukupna cena (" ++ toLocaleStringDeDE (l.price.getD 0) ++ " €)"]
    else []
  ladderCons ++ nbCons ++ sqmCons ++ priceCons

/-- One listing rated by the part_000 variant (its object literal at
lines 165–174). -/
def rateOne2 (medianPPS : Option ℚ) (medianPrice : ℚ) (nb : String → Option NbStats)
    (l : Listing) : RatedListing2 :=
  { toListing := l
    rating := score2 medianPPS medianPrice nb l
    label := if 9 ≤ score2 medianPPS medianPrice nb l then "MUST BUY" else ""
    ratingReason := mainReason2 medianPPS medianPrice l
    ratingPros := some (pros2 medianPPS nb l)
    ratingCons := some (cons2 medianPPS medianPrice nb l)
    medianPPS := some (jsRound (medianPPS.getD 0)) }

/-- The final comparator of part_000 (identical text to src/rater.js). -/
def listingCmp2 (a b : RatedListing2) : ℚ :=
  if b.rating ≠ a.rating then ((b.rating : ℚ) - (a.rating : ℚ))
  else if jsTruthy a.pricePerSqm && jsTruthy b.pricePerSqm then
    a.pricePerSqm.getD 0 - b.pricePerSqm.getD 0
  else if jsTruthy a.price && jsTruthy b.price then
    a.price.getD 0 - b.price.getD 0
  else 0

/-- The no-price-data early return of part_000 line 20 (same line as in
src/rater.js; the object carries no pros/cons/medianPPS keys). -/
def noData2 (l : Listing) : RatedListing2 :=
  { toListing := l
    rating := 5
    label := ""
    ratingReason := "No price data available for comparison"
    ratingPros := none
    ratingCons := none
    medianPPS := none }

/-- The pre-sort rated sequence of part_000 in input order. -/
def ratedSeq2 (listings : List Listing) : List RatedListing2 :=
  listings.map (rateOne2 (medianPPSOf listings) (medianPriceOf listings) (nbStatsOf listings))

/-- `rateListings` of src/unnamed/part_000. -/
def rateListings2 (listings : List Listing) : List RatedListing2 :=
  if listings.length = 0 then []
  else if (withPriceOf listings).length = 0 then listings.map noData2
  else jsSortBy listingCmp2 (ratedSeq2 listings)

/-! ## src/scraper.js — pure helpers

`deduplicate` (lines 190–197), `getTotalPages` (lines 135–162) and
`parseSqm` (lines 30–35).  cheerio DOM queries cannot be computed from
the raw markup string, so `getTotalPages` takes the two query results it
consumes — the `href` attributes of `a[href*="page="]` anchors and the
text contents of `.page-number, .pagination a, .paging a` nodes — as
explicit lists; the regular expressions the source applies to plain
strings are modelled on the string itself. -/

/-- JS `\s` / `trim` whitespace (the core ASCII cases; exotic Unicode
space characters are not distinguished). -/
def isJsWs (c : Char) : Bool := c.isWhitespace

/-- `String.prototype.trim`. -/
def jsTrim (s : String) : String :=
  String.mk (((s.toList.dropWhile isJsWs).reverse.dropWhile isJsWs).reverse)

/-- Value of a decimal digit string. -/
def digitsToNat (ds : List Char) : ℕ :=
  ds.foldl (fun a c => a * 10 + (c.toNat - '0'.toNat)) 0

/-- Optional leading sign of a numeric literal: whether it is negative,
and the remaining characters. -/
def signSplit : List Char → Bool × List Char
  | '-' :: r => (true, r)
  | '+' :: r => (false, r)
  | cs => (false, cs)

/-- JS `parseInt` (radix 10): skip leading whitespace, optional sign,
maximal run of decimal digits; `NaN` (= `none`) if no digit.  (`0x` hex
prefixes are not distinguished; none of the modelled inputs use them.) -/
def jsParseInt (s : String) : Option ℤ :=
  let sb := signSplit (s.toList.dropWhile isJsWs)
  let ds := sb.2.takeWhile Char.isDigit
  if ds = [] then none
  else some ((if sb.1 then -1 else 1) * digitsToNat ds)

/-- Exponent part accepted by `parseFloat` after `e`/`E`: optional sign
then digits; an ill-formed exponent is simply not consumed (value 0). -/
def parseFloatExp (cs : List Char) : ℤ :=
  let sb := signSplit cs
  let ds := sb.2.takeWhile Char.isDigit
  if ds = [] then 0 else (if sb.1 then -1 else 1) * digitsToNat ds

/-- JS `parseFloat`: longest valid decimal-literal front of the string
(optional sign, digits with at most one point — at least one digit —
optional well-formed exponent); `NaN` (= `none`) when no such front
exists.  (`Infinity` and hex forms are not modelled; the program only
applies this to strings of digits, dots and commas.) -/
def jsParseFloat (s : String) : Option ℚ :=
  let sb := signSplit (s.toList.dropWhile isJsWs)
  let ip := sb.2.takeWhile Char.isDigit
  let rest1 := sb.2.dropWhile Char.isDigit
  let fp : List Char :=
    if rest1.head? = some '.' then (rest1.drop 1).takeWhile Char.isDigit else []
  let rest2 : List Char :=
    if rest1.head? = some '.' then (rest1.drop 1).dropWhile Char.isDigit else rest1
  if ip = [] ∧ fp = [] then none
  else
    let mant : ℚ := (digitsToNat ip : ℚ) + (digitsToNat fp : ℚ) / ((10 : ℚ) ^ fp.length)
    let e : ℤ :=
      if rest2.head? = some 'e' ∨ rest2.head? = some 'E' then parseFloatExp (rest2.drop 1)
      else 0
    some ((if sb.1 then -1 else 1) * mant * (10 : ℚ) ^ e)

/-- A JS expression that is a number, `NaN`, or `null`. -/
inductive JsNumOrNull where
  | null : JsNumOrNull
  | nan : JsNumOrNull
  | num (q : ℚ) : JsNumOrNull
deriving DecidableEq, Repr

/-- Character class `[\d.,]` of `parseSqm`'s token regex. -/
def isSqmTokChar (c : Char) : Bool := c.isDigit || c = '.' || c = ','

/-- Leftmost maximal `[\d.,]+` run (the regex `match(/([\d.,]+)/)`). -/
def firstNumToken : List Char → Option (List Char)
  | [] => none
  | c :: cs =>
    if isSqmTokChar c then some (c :: cs.takeWhile isSqmTokChar)
    else firstNumToken cs

/-- `replace(',', '.')`: only the first comma is replaced. -/
def replaceFirstComma : List Char → List Char
  | [] => []
  | c :: cs => if c = ',' then '.' :: cs else c :: replaceFirstComma cs

/-- `parseSqm` (src/scraper.js lines 30–35):

```js
function parseSqm(text) {
  if (!text) return null;
  const match = text.replace(/\s/g, '').match(/([\d.,]+)/);
  if (!match) return null;
  return parseFloat(match[1].replace(',', '.'));
}
```
The spec calls this `parseAreaValue`. -/
def parseSqm (text : String) : JsNumOrNull :=
  if text = "" then .null
  else
    let stripped := text.toList.filter (fun c => !isJsWs c)
    match firstNumToken stripped with
    | none => .null
    | some tok =>
      match jsParseFloat (String.mk (replaceFirstComma tok)) with
      | none => .nan
      | some q => .num q

/-- Match of `/"TotalPages"\s*:\s*(\d+)/` anchored at the front of the
character list. -/
def matchTotalPagesAt (cs : List Char) : Option ℕ :=
  if ("\"TotalPages\"".toList).isPrefixOf cs then
    match (cs.drop 12).dropWhile isJsWs with
    | ':' :: r2 =>
      let ds := (r2.dropWhile isJsWs).takeWhile Char.isDigit
      if ds = [] then none else some (digitsToNat ds)
    | _ => none
  else none

/-- Leftmost match of `/"TotalPages"\s*:\s*(\d+)/` in the page text. -/
def findTotalPagesAux : List Char → Option ℕ
  | [] => none
  | c :: cs =>
    match matchTotalPagesAt (c :: cs) with
    | some n => some n
    | none => findTotalPagesAux cs

/-- `html.match(/"TotalPages"\s*:\s*(\d+)/)`, returning the captured
count. -/
def findTotalPages (html : String) : Option ℕ :=
  findTotalPagesAux html.toList

/-- Leftmost match of `/page=(\d+)/` in an `href` value. -/
def hrefPageNumAux : List Char → Option ℕ
  | [] => none
  | c :: cs =>
    if ("page=".toList).isPrefixOf (c :: cs) then
      let ds := ((c :: cs).drop 5).takeWhile Char.isDigit
      if ds = [] then hrefPageNumAux cs else some (digitsToNat ds)
    else hrefPageNumAux cs

def hrefPageNum (href : String) : Option ℕ :=
  hrefPageNumAux href.toList

/-- One step of the `maxPage` accumulation: `if (p > maxPage) maxPage = p`,
with a failed parse (`NaN`, i.e. `none`) leaving the accumulator alone. -/
def maxStep (acc : ℤ) : Option ℤ → ℤ
  | some v => if acc < v then v else acc
  | none => acc

/-- `getTotalPages` (src/scraper.js lines 135–162).  `pageLinkHrefs` are
the `href`s of the `a[href*="page="]` anchors and `paginationTexts` the
node texts of `.page-number, .pagination a, .paging a`, both in document
order. -/
def getTotalPages (html : String) (pageLinkHrefs paginationTexts : List String) : ℤ :=
  match findTotalPages html with
  | some n => (n : ℤ)
  | none =>
    let m1 : ℤ := pageLinkHrefs.foldl
      (fun acc href => maxStep acc ((hrefPageNum href).map Int.ofNat)) 1
    paginationTexts.foldl
      (fun acc t => maxStep acc (jsParseInt (jsTrim t))) m1

/-- `deduplicate` (src/scraper.js lines 190–197): keep a listing iff its
`id` is truthy (non-empty) and not seen before. -/
def dedupGo (seen : List String) : List Listing → List Listing
  | [] => []
  | l :: ls =>
    if l.id = "" ∨ l.id ∈ seen then dedupGo seen ls
    else l :: dedupGo (l.id :: seen) ls

def deduplicate (listings : List Listing) : List Listing :=
  dedupGo [] listings

/-! ## Properties of the modelled `Array.prototype.sort` -/

theorem insertByCmp_perm (cmp : α → α → ℚ) (x : α) (l : List α) :
    (insertByCmp cmp x l).Perm (x :: l) := by
  induction l with
  | nil => rfl
  | cons y ys ih =>
    by_cases h : cmp x y ≤ 0
    · rw [insertByCmp, if_pos h]
    · rw [insertByCmp, if_neg h]
      exact (ih.cons y).trans (List.Perm.swap x y ys)

theorem jsSortBy_perm (cmp : α → α → ℚ) (l : List α) : (jsSortBy cmp l).Perm l := by
  induction l with
  | nil => rfl
  | cons x xs ih => exact (insertByCmp_perm cmp x (jsSortBy cmp xs)).trans (ih.cons x)

theorem mem_jsSortBy {cmp : α → α → ℚ} {l : List α} {a : α} :
    a ∈ jsSortBy cmp l ↔ a ∈ l :=
  (jsSortBy_perm cmp l).mem_iff

theorem jsSortBy_eq_nil_iff {cmp : α → α → ℚ} {l : List α} :
    jsSortBy cmp l = [] ↔ l = [] := by
  constructor
  · intro h
    have := (jsSortBy_perm cmp l).symm
    rw [h] at this
    exact this.eq_nil
  · rintro rfl; rfl

/-- Inserting into a list that is pairwise-`R`-sorted keeps it sorted,
provided the comparator's sign decides `R` in both directions and `R` is
transitive. -/
theorem pairwise_insertByCmp {R : α → α → Prop} (cmp : α → α → ℚ)
    (htrans : ∀ a b c, R a b → R b c → R a c)
    (h1 : ∀ a b, cmp a b ≤ 0 → R a b) (h2 : ∀ a b, ¬ cmp a b ≤ 0 → R b a)
    (x : α) {l : List α} (hl : l.Pairwise R) : (insertByCmp cmp x l).Pairwise R := by
  induction l with
  | nil => simp [insertByCmp]
  | cons y ys ih =>
    rcases List.pairwise_cons.mp hl with ⟨hy, hys⟩
    by_cases h : cmp x y ≤ 0
    · rw [insertByCmp, if_pos h]
      refine List.pairwise_cons.mpr ⟨?_, hl⟩
      intro z hz
      rcases List.mem_cons.mp hz with rfl | hz'
      · exact h1 x z h
      · exact htrans x y z (h1 x y h) (hy z hz')
    · rw [insertByCmp, if_neg h]
      refine List.pairwise_cons.mpr ⟨?_, ih hys⟩
      intro z hz
      rcases List.mem_cons.mp ((insertByCmp_perm cmp x ys).subset hz) with rfl | hz'
      · exact h2 z y h
      · exact hy z hz'

theorem pairwise_jsSortBy {R : α → α → Prop} (cmp : α → α → ℚ)
    (htrans : ∀ a b c, R a b → R b c → R a c)
    (h1 : ∀ a b, cmp a b ≤ 0 → R a b) (h2 : ∀ a b, ¬ cmp a b ≤ 0 → R b a)
    (l : List α) : (jsSortBy cmp l).Pairwise R := by
  induction l with
  | nil => simp [jsSortBy]
  | cons x xs ih => exact pairwise_insertByCmp cmp htrans h1 h2 x ih

/-- Inserting preserves the adjacent-pair comparator order, provided the
comparator is sign-antisymmetric. -/
theorem chain'_insertByCmp (cmp : α → α → ℚ)
    (hneg : ∀ a b, ¬ cmp a b ≤ 0 → cmp b a ≤ 0)
    (x : α) {l : List α} (hl : l.Chain' (fun a b => cmp a b ≤ 0)) :
    (insertByCmp cmp x l).Chain' (fun a b => cmp a b ≤ 0) := by
  induction l with
  | nil => simp [insertByCmp]
  | cons y ys ih =>
    by_cases h : cmp x y ≤ 0
    · rw [insertByCmp, if_pos h]
      exact hl.cons h
    · rw [insertByCmp, if_neg h]
      have htail := ih hl.tail
      cases ys with
      | nil =>
        simp only [insertByCmp]
        exact List.chain'_pair.mpr (hneg x y h)
      | cons z zs =>
        rw [insertByCmp] at htail ⊢
        by_cases h2 : cmp x z ≤ 0
        · rw [if_pos h2] at htail ⊢
          exact htail.cons (hneg x y h)
        · rw [if_neg h2] at htail ⊢
          exact htail.cons (List.chain'_cons.mp hl).1

theorem chain'_jsSortBy (cmp : α → α → ℚ)
    (hneg : ∀ a b, ¬ cmp a b ≤ 0 → cmp b a ≤ 0) (l : List α) :
    (jsSortBy cmp l).Chain' (fun a b => cmp a b ≤ 0) := by
  induction l with
  | nil => simp [jsSortBy]
  | cons x xs ih => exact chain'_insertByCmp cmp hneg x ih

/-- Sorting commutes with mapping when the comparator only inspects the
mapped image. -/
theorem map_insertByCmp (f : α → β) (cmp : β → β → ℚ) (x : α) (l : List α) :
    (insertByCmp (fun a b => cmp (f a) (f b)) x l).map f =
      insertByCmp cmp (f x) (l.map f) := by
  induction l with
  | nil => rfl
  | cons y ys ih =>
    by_cases h : cmp (f x) (f y) ≤ 0 <;>
      simp [insertByCmp, h, ih]

theorem map_jsSortBy (f : α → β) (cmp : β → β → ℚ) (l : List α) :
    (jsSortBy (fun a b => cmp (f a) (f b)) l).map f = jsSortBy cmp (l.map f) := by
  induction l with
  | nil => rfl
  | cons x xs ih => simp [jsSortBy, map_insertByCmp, ih]

/-- Stability, keyed form: inserting an element whose key is smaller than
every key present preserves the invariant that comparator-equal adjacent
pairs are ordered by key, provided a strictly-positive comparison is
never read back as equality. -/
theorem chain'_stable_insertByCmp (cmp : α → α → ℚ)
    (hnz : ∀ a b, ¬ cmp a b ≤ 0 → ¬ cmp b a = 0)
    (x : ℕ × α) {l : List (ℕ × α)}
    (hx : ∀ y ∈ l, x.1 < y.1)
    (hl : l.Chain' (fun a b => cmp a.2 b.2 = 0 → a.1 < b.1)) :
    (insertByCmp (fun a b => cmp a.2 b.2) x l).Chain'
      (fun a b => cmp a.2 b.2 = 0 → a.1 < b.1) := by
  induction l with
  | nil => simp [insertByCmp]
  | cons y ys ih =>
    by_cases h : cmp x.2 y.2 ≤ 0
    · rw [insertByCmp, if_pos h]
      exact hl.cons fun _ => hx y (List.mem_cons_self y ys)
    · rw [insertByCmp, if_neg h]
      have htail := ih (fun z hz => hx z (List.mem_cons_of_mem y hz)) hl.tail
      cases ys with
      | nil =>
        simp only [insertByCmp]
        exact List.chain'_pair.mpr fun hc => absurd hc (hnz x.2 y.2 h)
      | cons z zs =>
        rw [insertByCmp] at htail ⊢
        by_cases h2 : cmp x.2 z.2 ≤ 0
        · rw [if_pos h2] at htail ⊢
          exact htail.cons fun hc => absurd hc (hnz x.2 y.2 h)
        · rw [if_neg h2] at htail ⊢
          exact htail.cons (List.chain'_cons.mp hl).1

theorem le_fst_of_mem_enumFrom {l : List α} {n : ℕ} {p : ℕ × α}
    (h : p ∈ l.enumFrom n) : n ≤ p.1 := by
  induction l generalizing n with
  | nil => simp [List.enumFrom] at h
  | cons x xs ih =>
    rcases List.mem_cons.mp h with rfl | h'
    · exact le_refl _
    · exact Nat.le_of_succ_le (ih h')

theorem enumFrom_map_snd (n : ℕ) (l : List α) : (l.enumFrom n).map Prod.snd = l := by
  induction l generalizing n with
  | nil => rfl
  | cons x xs ih => simp [List.enumFrom, ih]

/-- Key-ordering invariant of the stable sort over an enumerated list:
comparator-equal adjacent output elements carry increasing input
positions. -/
theorem chain'_stable_jsSortBy_enumFrom (cmp : α → α → ℚ)
    (hnz : ∀ a b, ¬ cmp a b ≤ 0 → ¬ cmp b a = 0) (l : List α) (n : ℕ) :
    (jsSortBy (fun a b => cmp a.2 b.2) (l.enumFrom n)).Chain'
      (fun a b => cmp a.2 b.2 = 0 → a.1 < b.1) := by
  induction l generalizing n with
  | nil => simp [jsSortBy, List.enumFrom]
  | cons x xs ih =>
    show (insertByCmp _ (n, x) (jsSortBy _ (xs.enumFrom (n + 1)))).Chain' _
    apply chain'_stable_insertByCmp cmp hnz
    · intro y hy
      exact Nat.lt_of_succ_le (le_fst_of_mem_enumFrom (mem_jsSortBy.mp hy))
    · exact ih (n + 1)

/-! ## Properties of the listing comparator -/

theorem listingCmp_antisymm (a b : RatedListing) : listingCmp b a = -listingCmp a b := by
  unfold listingCmp
  by_cases h : a.rating = b.rating
  · simp only [h, ne_eq, eq_self_iff_true, not_true, if_false]
    rw [Bool.and_comm (jsTruthy b.pricePerSqm) (jsTruthy a.pricePerSqm),
        Bool.and_comm (jsTruthy b.price) (jsTruthy a.price)]
    split_ifs <;> ring
  · rw [if_pos (show a.rating ≠ b.rating from h),
        if_pos (show b.rating ≠ a.rating from fun he => h he.symm)]
    ring

theorem listingCmp_neg_le {a b : RatedListing} (h : ¬ listingCmp a b ≤ 0) :
    listingCmp b a ≤ 0 := by
  rw [listingCmp_antisymm]
  linarith [not_le.mp h]

theorem listingCmp_pos_ne_zero {a b : RatedListing} (h : ¬ listingCmp a b ≤ 0) :
    ¬ listingCmp b a = 0 := by
  rw [listingCmp_antisymm, neg_eq_zero]
  intro h0
  exact h (le_of_eq h0)

theorem rating_le_of_listingCmp_le {a b : RatedListing} (h : listingCmp a b ≤ 0) :
    b.rating ≤ a.rating := by
  by_cases hr : b.rating = a.rating
  · exact le_of_eq hr
  · unfold listingCmp at h
    rw [if_pos hr] at h
    exact_mod_cast sub_nonpos.mp h

theorem rating_le_of_listingCmp_not_le {a b : RatedListing} (h : ¬ listingCmp a b ≤ 0) :
    a.rating ≤ b.rating := by
  by_cases hr : b.rating = a.rating
  · exact le_of_eq hr.symm
  · unfold listingCmp at h
    rw [if_pos hr] at h
    have hpos : (0 : ℚ) < (b.rating : ℚ) - (a.rating : ℚ) := not_le.mp h
    have : (a.rating : ℚ) < (b.rating : ℚ) := by linarith
    exact_mod_cast le_of_lt this

/-! ## Properties of `deduplicate` -/

theorem dedupGo_sublist (seen : List String) (xs : List Listing) :
    (dedupGo seen xs).Sublist xs := by
  induction xs generalizing seen with
  | nil => simp [dedupGo]
  | cons l ls ih =>
    rw [dedupGo]
    by_cases h : l.id = "" ∨ l.id ∈ seen
    · rw [if_pos h]
      exact (ih seen).cons l
    · rw [if_neg h]
      exact (ih (l.id :: seen)).cons₂ l

theorem dedupGo_id_ne_empty {seen : List String} {xs : List Listing} {l : Listing}
    (h : l ∈ dedupGo seen xs) : l.id ≠ "" := by
  induction xs generalizing seen with
  | nil => simp [dedupGo] at h
  | cons x ls ih =>
    rw [dedupGo] at h
    by_cases hx : x.id = "" ∨ x.id ∈ seen
    · rw [if_pos hx] at h
      exact ih h
    · rw [if_neg hx] at h
      rcases List.mem_cons.mp h with rfl | h'
      · exact fun he => hx (Or.inl he)
      · exact ih h'

theorem dedupGo_filter_id (xs : List Listing) (i : String) (hi : i ≠ "") :
    ∀ seen : List String,
      (dedupGo seen xs).filter (fun l => l.id = i) =
        if i ∈ seen then [] else (xs.find? (fun l => l.id = i)).toList := by
  induction xs with
  | nil => intro seen; by_cases h : i ∈ seen <;> simp [dedupGo, h]
  | cons l ls ih =>
    intro seen
    rw [dedupGo]
    by_cases h : l.id = "" ∨ l.id ∈ seen
    · rw [if_pos h, ih seen]
      by_cases hli : l.id = i
      · have hmem : i ∈ seen := by
          rcases h with h1 | h2
          · exact absurd (hli ▸ h1) hi
          · exact hli ▸ h2
        rw [if_pos hmem, if_pos hmem]
      · rw [List.find?_cons_of_neg _ (by simpa using hli)]
    · rw [if_neg h]
      push_neg at h
      rw [List.filter_cons]
      by_cases hli : l.id = i
      · rw [if_pos (by simpa using hli), ih (l.id :: seen)]
        rw [if_pos (by simp [hli]), List.find?_cons_of_pos _ (by simpa using hli)]
        rw [if_neg (hli ▸ h.2)]
        rfl
      · rw [if_neg (by simpa using hli), ih (l.id :: seen)]
        rw [List.find?_cons_of_neg _ (by simpa using hli)]
        by_cases hmem : i ∈ seen
        · rw [if_pos (List.mem_cons_of_mem _ hmem), if_pos hmem]
        · rw [if_neg ?_, if_neg hmem]
          intro hcon
          rcases List.mem_cons.mp hcon with he | hm
          · exact hli he.symm
          · exact hmem hm

/-! ## Score equivalence of the two rater variants -/

/-- The extra justification-only branches of part_000 never change the
score: both variants assign identical scores. -/
theorem score1_eq_score2 (m : Option ℚ) (mp : ℚ) (nb : String → Option NbStats)
    (l : Listing) : score1 m mp nb l = score2 m mp nb l := by
  simp only [score1, score2]
  cases hnb : nb l.neighborhood <;> simp only [hnb] <;> split_ifs <;> rfl

/-- The score-relevant projection of a rated listing: everything except
the human-readable justification fields. -/
structure ScoreView where
  listing : Listing
  rating : ℤ
  label : String
  medianPPS : Option ℤ
deriving DecidableEq, Repr

def view1 (r : RatedListing) : ScoreView :=
  ⟨r.toListing, r.rating, r.label, r.medianPPS⟩

def view2 (r : RatedListing2) : ScoreView :=
  ⟨r.toListing, r.rating, r.label, r.medianPPS⟩

/-- The sort comparator reads only score-relevant data. -/
def viewCmp (a b : ScoreView) : ℚ :=
  if b.rating ≠ a.rating then ((b.rating : ℚ) - (a.rating : ℚ))
  else if jsTruthy a.listing.pricePerSqm && jsTruthy b.listing.pricePerSqm then
    a.listing.pricePerSqm.getD 0 - b.listing.pricePerSqm.getD 0
  else if jsTruthy a.listing.price && jsTruthy b.listing.price then
    a.listing.price.getD 0 - b.listing.price.getD 0
  else 0

theorem listingCmp_eq_viewCmp (a b : RatedListing) :
    listingCmp a b = viewCmp (view1 a) (view1 b) := rfl

theorem listingCmp2_eq_viewCmp (a b : RatedListing2) :
    listingCmp2 a b = viewCmp (view2 a) (view2 b) := rfl

theorem view_rateOne_eq (m : Option ℚ) (mp : ℚ) (nb : String → Option NbStats)
    (l : Listing) : view1 (rateOne m mp nb l) = view2 (rateOne2 m mp nb l) := by
  simp only [view1, view2, rateOne, rateOne2, score1_eq_score2]

/-! ## Percentile endpoint facts -/

theorem percentile_first (xs : List ℚ) (h : xs ≠ []) :
    percentile xs 0 = xs.head h := by
  rcases xs with _ | ⟨y, ys⟩
  · exact absurd rfl h
  · simp [percentile]

theorem percentile_last (xs : List ℚ) (h : xs ≠ []) :
    percentile xs 100 = xs.getLast h := by
  have hlen : xs.length ≠ 0 := by simpa [List.length_eq_zero] using h
  have hn1 : 1 ≤ xs.length := Nat.one_le_iff_ne_zero.mpr hlen
  simp only [percentile, if_neg hlen]
  have hidx : ((100 : ℚ) / 100) * ((xs.length : ℚ) - 1) = ((xs.length - 1 : ℕ) : ℚ) := by
    push_cast [hn1]
    ring
  rw [hidx, Int.floor_natCast, Int.ceil_natCast, if_pos rfl, Int.toNat_natCast]
  have hlt : xs.length - 1 < xs.length := by omega
  rw [List.getLast_eq_getElem, List.getD_eq_getElem?_getD, List.getElem?_eq_getElem hlt,
    Option.getD_some]

theorem percentile_middle (xs : List ℚ) (k : ℕ) (hk : xs.length = 2 * k + 1) :
    percentile xs 50 = xs.getD k 0 := by
  have hlen : xs.length ≠ 0 := by omega
  simp only [percentile, if_neg hlen]
  have hidx : ((50 : ℚ) / 100) * ((xs.length : ℚ) - 1) = ((k : ℕ) : ℚ) := by
    rw [hk]
    push_cast
    ring
  rw [hidx, Int.floor_natCast, Int.ceil_natCast, if_pos rfl, Int.toNat_natCast]

/-! ## Maximum-fold facts for `getTotalPages` -/

theorem le_foldl_max (l : List ℤ) (a : ℤ) : a ≤ l.foldl max a := by
  induction l generalizing a with
  | nil => exact le_refl a
  | cons x xs ih => exact le_trans (le_max_left a x) (ih (max a x))

theorem foldl_maxStep_eq {β : Type} (g : β → Option ℤ) (l : List β) (a : ℤ) :
    l.foldl (fun acc t => maxStep acc (g t)) a = (l.filterMap g).foldl max a := by
  induction l generalizing a with
  | nil => rfl
  | cons x xs ih =>
    cases hgx : g x with
    | none =>
      have h1 : (x :: xs).foldl (fun acc t => maxStep acc (g t)) a
          = xs.foldl (fun acc t => maxStep acc (g t)) a := by
        rw [List.foldl_cons]
        congr 1
        show maxStep a (g x) = a
        rw [hgx]
        rfl
      rw [h1, ih, List.filterMap_cons, hgx]
    | some v =>
      have h1 : (x :: xs).foldl (fun acc t => maxStep acc (g t)) a
          = xs.foldl (fun acc t => maxStep acc (g t)) (if a < v then v else a) := by
        rw [List.foldl_cons]
        congr 1
        show maxStep a (g x) = if a < v then v else a
        rw [hgx]
        rfl
      rw [h1, ih, List.filterMap_cons, hgx]
      show (List.filterMap g xs).foldl max (if a < v then v else a)
          = (List.filterMap g xs).foldl max (max a v)
      congr 1
      rcases le_or_lt v a with hva | hva
      · rw [if_neg (not_lt.mpr hva), max_eq_left hva]
      · rw [if_pos hva, max_eq_right (le_of_lt hva)]

/-! ## When `parseFloat` yields a number -/

/-- Whether a character list starts with a decimal digit. -/
def startsDigit (cs : List Char) : Bool :=
  cs.head?.elim false Char.isDigit

/-- A string from which `parseFloat` can read a number: after optional
whitespace and sign it starts with a digit, or with a decimal point
followed by a digit. -/
def hasFloatStart (s : String) : Bool :=
  let body := (signSplit (s.toList.dropWhile isJsWs)).2
  startsDigit body || (decide (body.head? = some '.') && startsDigit (body.drop 1))

theorem takeWhile_digit_body (body : List Char) :
    (body.takeWhile Char.isDigit = [] ∧
      (if (body.dropWhile Char.isDigit).head? = some '.'
       then ((body.dropWhile Char.isDigit).drop 1).takeWhile Char.isDigit
       else ([] : List Char)) = []) ↔
    (startsDigit body ||
      (decide (body.head? = some '.') && startsDigit (body.drop 1))) = false := by
  rcases body with _ | ⟨c, r⟩
  · simp [startsDigit]
  · rw [List.takeWhile_cons, List.dropWhile_cons]
    by_cases hd : c.isDigit
    · simp [startsDigit, hd]
    · rw [if_neg hd, if_neg hd]
      by_cases hdot : c = '.'
      · subst hdot
        rcases r with _ | ⟨d, rr⟩
        · simp [startsDigit, hd]
        · rw [List.head?_cons, if_pos rfl, List.drop_one, List.tail_cons,
            List.takeWhile_cons]
          by_cases hdd : d.isDigit <;> simp [startsDigit, hd, hdd]
      · simp [startsDigit, hd, hdot]

theorem jsParseFloat_none_iff (s : String) :
    jsParseFloat s = none ↔ hasFloatStart s = false := by
  unfold hasFloatStart
  rw [← takeWhile_digit_body]
  unfold jsParseFloat
  dsimp only
  by_cases h :
    ((signSplit (s.toList.dropWhile isJsWs)).2.takeWhile Char.isDigit = [] ∧
      (if (((signSplit (s.toList.dropWhile isJsWs)).2.dropWhile Char.isDigit).head? = some '.')
       then (((signSplit (s.toList.dropWhile isJsWs)).2.dropWhile Char.isDigit).drop 1).takeWhile
         Char.isDigit
       else ([] : List Char)) = [])
  · rw [if_pos h]
    simpa using h
  · rw [if_neg h]
    exact iff_of_false (by simp) h

/-! ## Path lemmas for `rateListings` -/

theorem rateListings_main {l : List Listing} (h0 : l ≠ []) (h1 : withPriceOf l ≠ []) :
    rateListings l = jsSortBy listingCmp (ratedSeq l) := by
  unfold rateListings
  rw [if_neg (by simpa [List.length_eq_zero] using h0),
    if_neg (by simpa [List.length_eq_zero] using h1)]

theorem score1_bounds (m : Option ℚ) (mp : ℚ) (nb : String → Option NbStats)
    (x : Listing) : 1 ≤ score1 m mp nb x ∧ score1 m mp nb x ≤ 10 := by
  unfold score1
  dsimp only
  exact ⟨le_max_left _ _, max_le (by norm_num) (min_le_left _ _)⟩

theorem rateOne_label_iff (m : Option ℚ) (mp : ℚ) (nb : String → Option NbStats)
    (x : Listing) :
    ((rateOne m mp nb x).label = "MUST BUY" ↔ 9 ≤ (rateOne m mp nb x).rating) := by
  show (if 9 ≤ score1 m mp nb x then "MUST BUY" else "") = "MUST BUY" ↔ 9 ≤ score1 m mp nb x
  by_cases h9 : 9 ≤ score1 m mp nb x
  · rw [if_pos h9]
    exact iff_of_true rfl h9
  · rw [if_neg h9]
    exact iff_of_false (by decide) h9

theorem rateOne_label_empty (m : Option ℚ) (mp : ℚ) (nb : String → Option NbStats)
    (x : Listing) (h : ¬ 9 ≤ (rateOne m mp nb x).rating) :
    (rateOne m mp nb x).label = "" := by
  show (if 9 ≤ score1 m mp nb x then "MUST BUY" else "") = ""
  exact if_neg (fun h9 => h h9)

/-- **C1.**  Every `RatedListing` produced by `rateListings` carries an
integral rating (the `rating` field has type `ℤ` by construction) with
`1 ≤ rating ≤ 10`; its label is `"MUST BUY"` exactly when `rating ≥ 9`,
and otherwise the label is the empty string. -/
theorem c1_rating_bounds_and_label :
    ∀ (l : List Listing), ∀ r ∈ rateListings l,
      1 ≤ r.rating ∧ r.rating ≤ 10 ∧ (r.label = "MUST BUY" ↔ 9 ≤ r.rating) ∧
      (¬ 9 ≤ r.rating → r.label = "") := by
  intro l r hr
  unfold rateListings at hr
  split_ifs at hr with h0 h1
  · simp at hr
  · rcases List.mem_map.mp hr with ⟨x, _, rfl⟩
    refine ⟨by norm_num [noData1], by norm_num [noData1], iff_of_false ?_ ?_, fun _ => rfl⟩
    · intro he
      have he' : "" = "MUST BUY" := he
      exact absurd he' (by decide)
    · intro h9
      have h9' : (9 : ℤ) ≤ 5 := h9
      exact absurd h9' (by decide)
  · rcases List.mem_map.mp (mem_jsSortBy.mp hr) with ⟨x, _, rfl⟩
    rcases score1_bounds (medianPPSOf l) (medianPriceOf l) (nbStatsOf l) x with ⟨hb1, hb2⟩
    exact ⟨hb1, hb2, rateOne_label_iff _ _ _ x, rateOne_label_empty _ _ _ x⟩

def c1wL : Listing := { id := "w1" }

theorem c1_witness :
    1 ≤ (noData1 c1wL).rating ∧ (noData1 c1wL).rating ≤ 10 ∧
    ((noData1 c1wL).label = "MUST BUY" ↔ 9 ≤ (noData1 c1wL).rating) ∧
    (¬ 9 ≤ (noData1 c1wL).rating → (noData1 c1wL).label = "") :=
  c1_rating_bounds_and_label [c1wL] (noData1 c1wL) (by decide)

/-- **C3.**  `rateListings` on the empty list returns the empty list, and
on a non-empty list in which no listing has a usable price (present and
positive) it returns exactly the input listings mapped through the
pre-statistics early return `noData1` — rating 5, empty label, the
"No price data available for comparison" reason.  The equality with the
early-return map is established without ever touching `percentile` or
the median definitions: on this path the code computes no statistics. -/
theorem c3_empty_and_no_price :
    rateListings ([] : List Listing) = [] ∧
    ∀ l : List Listing, l ≠ [] → (∀ x ∈ l, jsPos x.price = false) →
      rateListings l = l.map noData1 ∧
      ∀ r ∈ rateListings l, r.rating = 5 ∧ r.label = "" ∧
        r.ratingReason = "No price data available for comparison" := by
  refine ⟨rfl, ?_⟩
  intro l hne hnp
  have hwp : withPriceOf l = [] := by
    unfold withPriceOf
    rw [List.filter_eq_nil_iff]
    intro a ha
    simp [hnp a ha]
  have hmap : rateListings l = l.map noData1 := by
    unfold rateListings
    rw [if_neg (by simpa [List.length_eq_zero] using hne), if_pos (by rw [hwp]; rfl)]
  refine ⟨hmap, ?_⟩
  intro r hr
  rw [hmap] at hr
  rcases List.mem_map.mp hr with ⟨x, _, rfl⟩
  exact ⟨rfl, rfl, rfl⟩

def c3wL : Listing := { id := "n1" }

theorem c3_witness :
    rateListings [c3wL] = [c3wL].map noData1 ∧
    ∀ r ∈ rateListings [c3wL], r.rating = 5 ∧ r.label = "" ∧
      r.ratingReason = "No price data available for comparison" :=
  c3_empty_and_no_price.2 [c3wL] (by decide) (by decide)

/-- **C4.**  For every non-empty sorted sequence, `percentile` at 0 gives
the first element and at 100 the last; for odd length `2k + 1`,
`percentile` at 50 gives the middle element (index `k`).  The linear
interpolation `idx = (p/100)(n-1)` lands exactly on an integer rank in
each of these cases. -/
theorem c4_percentile_endpoints :
    ∀ (xs : List ℚ) (h : xs ≠ []), xs.Pairwise (· ≤ ·) →
      percentile xs 0 = xs.head h ∧
      percentile xs 100 = xs.getLast h ∧
      ∀ k : ℕ, xs.length = 2 * k + 1 → percentile xs 50 = xs.getD k 0 := by
  intro xs h _
  exact ⟨percentile_first xs h, percentile_last xs h,
    fun k hk => percentile_middle xs k hk⟩

theorem c4_witness :
    percentile [(1 : ℚ), 2, 3] 0 = 1 ∧ percentile [(1 : ℚ), 2, 3] 100 = 3 ∧
    percentile [(1 : ℚ), 2, 3] 50 = 2 := by
  have h := c4_percentile_endpoints [(1 : ℚ), 2, 3] (by decide)
    (by norm_num [List.pairwise_cons])
  exact ⟨h.1.trans rfl, h.2.1.trans rfl, (h.2.2 1 rfl).trans rfl⟩

/-! ## C6 / C10 — deduplication -/

/-- Claim C6 as stated: for each `id` occurring in the input — with no
exception for the empty id — the output contains exactly the first input
listing carrying it. -/
def c6Claim (xs : List Listing) : Prop :=
  ∀ i ∈ xs.map Listing.id,
    (deduplicate xs).filter (fun l => l.id = i) = (xs.find? (fun l => l.id = i)).toList

instance (xs : List Listing) : Decidable (c6Claim xs) := by
  unfold c6Claim
  exact inferInstance

def c6badL : Listing := { id := "" }

/-- counterexample to **C6**: a listing whose `id` is the empty string is
dropped by `deduplicate` even though its id occurs in the input, so the
output does not contain "the first input listing with that id". -/
theorem c6_counterexample : ¬ c6Claim [c6badL] := by decide

/-- **C6 (amended).**  `deduplicate` keeps at most one listing per id and
the earliest instance wins, in input order — for every *non-empty* id:
the output is a sublist of the input (order preserved, later duplicates
dropped whole, never merged), and for each id `i ≠ ""` the output's
listings with that id are exactly the first input listing with it (empty
when the id does not occur).  Records with empty id are removed entirely
(claim C10). -/
theorem c6_amended_first_wins :
    ∀ xs : List Listing,
      (deduplicate xs).Sublist xs ∧
      ∀ i : String, i ≠ "" →
        (deduplicate xs).filter (fun l => l.id = i) =
          (xs.find? (fun l => l.id = i)).toList := by
  intro xs
  refine ⟨dedupGo_sublist [] xs, fun i hi => ?_⟩
  have h := dedupGo_filter_id xs i hi []
  simpa using h

def c6wA : Listing := { id := "a" }
def c6wA2 : Listing := { id := "a", title := "later duplicate" }

theorem c6_witness :
    (deduplicate [c6wA, c6wA2]).filter (fun l => l.id = "a") =
      ([c6wA, c6wA2].find? (fun l => l.id = "a")).toList :=
  (c6_amended_first_wins [c6wA, c6wA2]).2 "a" (by decide)

/-- **C10.**  A listing with empty (falsy) `id` never appears in the
deduplicated output — even when it is the only listing with that id. -/
theorem c10_empty_id_never_survives :
    ∀ xs : List Listing, ∀ l ∈ deduplicate xs, l.id ≠ "" := by
  intro xs l hl
  exact dedupGo_id_ne_empty hl

def c10wL : Listing := { id := "x7" }

theorem c10_witness : c10wL.id ≠ "" :=
  c10_empty_id_never_survives [c10wL] c10wL (by decide)

/-! ## C9 — the two rater implementations are score-equivalent -/

/-- **C9.**  The two `rateListings` implementations (src/rater.js and
src/unnamed/part_000) agree on everything except the human-readable
justification fields: mapping both outputs to the score-relevant view
(underlying listing, `rating`, `label`, `medianPPS`) gives identical
sequences — same ratings, same labels, same `medianPPS`, same order. -/
theorem c9_raters_score_equivalent :
    ∀ l : List Listing, (rateListings l).map view1 = (rateListings2 l).map view2 := by
  intro l
  unfold rateListings rateListings2
  by_cases h0 : l.length = 0
  · rw [if_pos h0, if_pos h0]
    rfl
  · rw [if_neg h0, if_neg h0]
    by_cases h1 : (withPriceOf l).length = 0
    · rw [if_pos h1, if_pos h1, List.map_map, List.map_map]
      have hc : (view1 ∘ noData1) = (view2 ∘ noData2) := funext fun x => rfl
      rw [hc]
    · rw [if_neg h1, if_neg h1]
      have e1 : listingCmp = fun a b => viewCmp (view1 a) (view1 b) :=
        funext fun a => funext fun b => listingCmp_eq_viewCmp a b
      have e2 : listingCmp2 = fun a b => viewCmp (view2 a) (view2 b) :=
        funext fun a => funext fun b => listingCmp2_eq_viewCmp a b
      rw [e1, e2, map_jsSortBy view1 viewCmp, map_jsSortBy view2 viewCmp]
      unfold ratedSeq ratedSeq2
      rw [List.map_map, List.map_map]
      have hc : (view1 ∘ rateOne (medianPPSOf l) (medianPriceOf l) (nbStatsOf l)) =
          (view2 ∘ rateOne2 (medianPPSOf l) (medianPriceOf l) (nbStatsOf l)) :=
        funext fun x => view_rateOne_eq _ _ _ x
      rw [hc]

/-! ## C5 — `getTotalPages` -/

/-- counterexample to **C5**: when the page embeds `"TotalPages":0`, the
captured count `0` is returned as-is — the function is *not* bounded
below by 1 on the embedded-count path. -/
theorem c5_counterexample :
    getTotalPages "\"TotalPages\":0" [] [] = 0 ∧
    ¬ (1 ≤ getTotalPages "\"TotalPages\":0" [] []) := by decide

/-- **C5 (amended).**  When the embedded structured count is present it is
returned verbatim (and may be 0); only when it is absent does
`getTotalPages` fall back to the maximum page number referenced by any
pagination control — the maximum of 1 and all numbers extracted from the
`page=` hrefs and the pagination texts — and on that fallback path the
result is never less than 1. -/
theorem c5_amended_total_pages :
    ∀ (html : String) (hs ts : List String),
      (∀ n : ℕ, findTotalPages html = some n → getTotalPages html hs ts = n) ∧
      (findTotalPages html = none →
        getTotalPages html hs ts =
          ((hs.filterMap hrefPageNum).map Int.ofNat ++
            ts.filterMap (fun t => jsParseInt (jsTrim t))).foldl max 1 ∧
        1 ≤ getTotalPages html hs ts) := by
  intro html hs ts
  constructor
  · intro n hn
    unfold getTotalPages
    rw [hn]
  · intro hn
    have heq : getTotalPages html hs ts =
        ((hs.filterMap hrefPageNum).map Int.ofNat ++
          ts.filterMap (fun t => jsParseInt (jsTrim t))).foldl max 1 := by
      unfold getTotalPages
      rw [hn]
      dsimp only
      rw [foldl_maxStep_eq, foldl_maxStep_eq, List.foldl_append, List.map_filterMap]
    exact ⟨heq, heq ▸ le_foldl_max _ 1⟩

theorem c5_witness :
    getTotalPages "x\"TotalPages\" : 4 y" [] [] = 4 ∧
    (getTotalPages "<p>" ["?page=3"] ["7"] =
        (((["?page=3"] : List String).filterMap hrefPageNum).map Int.ofNat ++
          (["7"] : List String).filterMap (fun t => jsParseInt (jsTrim t))).foldl max 1 ∧
      1 ≤ getTotalPages "<p>" ["?page=3"] ["7"]) :=
  ⟨(c5_amended_total_pages "x\"TotalPages\" : 4 y" [] []).1 4 (by decide),
   (c5_amended_total_pages "<p>" ["?page=3"] ["7"]).2 (by decide)⟩

/-! ## C7 — `parseSqm` -/

/-- The whitespace-stripped character list `parseSqm` tokenizes. -/
def c7strip (t : String) : List Char :=
  t.toList.filter (fun c => !isJsWs c)

/-- counterexample to **C7**: on input `"."` the token regex `[\d.,]+`
*does* find a token (the lone dot), yet the result is `NaN` — neither
`null` nor a number. -/
theorem c7_counterexample :
    firstNumToken (c7strip ".") = some ['.'] ∧ parseSqm "." = JsNumOrNull.nan := by
  decide

/-- **C7 (amended).**  `parseSqm` returns `null` exactly when the input is
empty or the stripped text contains no `[\d.,]` token.  When a token is
found the result is `parseFloat` of the token after replacing its first
comma by a dot: a number exactly when that transformed token begins
(after an optional sign) with a digit or with a dot followed by a digit,
and `NaN` otherwise (e.g. for tokens consisting of separators only, such
as `"."` or `",,5"`). -/
theorem c7_amended_parse_area :
    ∀ t : String,
      (parseSqm t = JsNumOrNull.null ↔ (t = "" ∨ firstNumToken (c7strip t) = none)) ∧
      (∀ tok, t ≠ "" → firstNumToken (c7strip t) = some tok →
        (parseSqm t = JsNumOrNull.nan ↔
          hasFloatStart (String.mk (replaceFirstComma tok)) = false) ∧
        (∀ q : ℚ, parseSqm t = JsNumOrNull.num q →
          jsParseFloat (String.mk (replaceFirstComma tok)) = some q)) := by
  intro t
  constructor
  · by_cases h0 : t = ""
    · simp [parseSqm, h0]
    · rw [parseSqm, if_neg h0]
      rcases htok : firstNumToken (List.filter (fun c => !isJsWs c) t.data) with _ | tok
      · simp [c7strip, String.toList, htok, h0]
      · rcases hpf : jsParseFloat (String.mk (replaceFirstComma tok)) with _ | q <;>
          simp [c7strip, String.toList, htok, h0, hpf]
  · intro tok hne htok
    have htok2 : firstNumToken (List.filter (fun c => !isJsWs c) t.toList) = some tok := htok
    constructor
    · rw [parseSqm, if_neg hne]
      dsimp only
      rw [htok2]
      dsimp only
      rw [← jsParseFloat_none_iff]
      rcases hpf : jsParseFloat (String.mk (replaceFirstComma tok)) with _ | q <;> simp
    · intro q hq
      rw [parseSqm, if_neg hne] at hq
      dsimp only at hq
      rw [htok2] at hq
      dsimp only at hq
      rcases hpf : jsParseFloat (String.mk (replaceFirstComma tok)) with _ | q2
      · rw [hpf] at hq
        simp at hq
      · rw [hpf] at hq
        have hqq : q2 = q := by simpa using hq
        rw [hqq]

theorem c7_witness :
    (parseSqm "1,5" = JsNumOrNull.nan ↔
      hasFloatStart (String.mk (replaceFirstComma ['1', ',', '5'])) = false) ∧
    (∀ q : ℚ, parseSqm "1,5" = JsNumOrNull.num q →
      jsParseFloat (String.mk (replaceFirstComma ['1', ',', '5'])) = some q) :=
  (c7_amended_parse_area "1,5").2 ['1', ',', '5'] (by decide) (by decide)

/-! ## C2 — order of the rated output -/

/-- `percentile` at an exactly-integral interpolation index. -/
theorem percentile_at_nat (xs : List ℚ) (p : ℚ) (k : ℕ) (hlen : xs.length ≠ 0)
    (hidx : (p / 100) * ((xs.length : ℚ) - 1) = (k : ℚ)) :
    percentile xs p = xs.getD k 0 := by
  simp [percentile, if_neg hlen, hidx, Int.floor_natCast, Int.ceil_natCast,
    Int.toNat_natCast]
  intro he
  exact absurd (by rw [he]; rfl : xs.length = 0) hlen

/-- A junk rated listing used only as an out-of-range `getD` default. -/
def dummyRated : RatedListing := noData1 { id := "" }

/-- The tie-break claim C2 imposes on an equal-rating pair, "preserve
input order" read against the pre-sort rated sequence. -/
def c2TieOK (rated : List RatedListing) (a b : RatedListing) : Prop :=
  if (jsTruthy a.pricePerSqm && jsTruthy b.pricePerSqm) = true then
    a.pricePerSqm.getD 0 ≤ b.pricePerSqm.getD 0
  else if (jsTruthy a.price && jsTruthy b.price) = true then
    a.price.getD 0 ≤ b.price.getD 0
  else rated.indexOf a ≤ rated.indexOf b

instance (rated : List RatedListing) (a b : RatedListing) :
    Decidable (c2TieOK rated a b) := by
  unfold c2TieOK
  exact inferInstance

/-- Claim C2 as stated, for one input: every position pair of the output
is ordered by rating descending, and equal-rating pairs satisfy the
pps/price/input-order tie-break. -/
def c2Claim (l : List Listing) : Prop :=
  ∀ i j : ℕ, i < j → j < (rateListings l).length →
    (((rateListings l).getD j dummyRated).rating ≤
      ((rateListings l).getD i dummyRated).rating) ∧
    (((rateListings l).getD i dummyRated).rating =
        ((rateListings l).getD j dummyRated).rating →
      c2TieOK (ratedSeq l) ((rateListings l).getD i dummyRated)
        ((rateListings l).getD j dummyRated))

/-- `percentile` when the interpolation index falls strictly between two
integers `k` and `k + 1`. -/
theorem percentile_interp (xs : List ℚ) (p : ℚ) (k : ℕ) (hlen : xs.length ≠ 0)
    (hfl : ⌊(p / 100) * ((xs.length : ℚ) - 1)⌋ = (k : ℤ))
    (hcl : ⌈(p / 100) * ((xs.length : ℚ) - 1)⌉ = (k : ℤ) + 1) :
    percentile xs p = xs.getD k 0 +
      (xs.getD (k + 1) 0 - xs.getD k 0) * ((p / 100) * ((xs.length : ℚ) - 1) - (k : ℚ)) := by
  unfold percentile
  rw [if_neg hlen]
  dsimp only
  rw [hfl, hcl, if_neg (by omega)]
  rw [show (k : ℤ) + 1 = ((k + 1 : ℕ) : ℤ) by push_cast; ring]
  rw [Int.toNat_natCast, Int.toNat_natCast, Int.cast_natCast]

def c2P5 : Listing := { id := "pA", pricePerSqm := some 5 }
def c2P3 : Listing := { id := "pB", pricePerSqm := some 3 }

def c2D : Listing := { id := "D", price := some 10, neighborhood := "N" }
def c2A : Listing := { id := "A", pricePerSqm := some 100, neighborhood := "N" }
def c2B : Listing := { id := "B", pricePerSqm := some 100, neighborhood := "N" }
def c2X : Listing := { id := "X", pricePerSqm := some 102, price := some 100, neighborhood := "N" }
def c2Z : Listing := { id := "Z", price := some 112, neighborhood := "N" }
def c2Y : Listing := { id := "Y", pricePerSqm := some 101, price := some 120, neighborhood := "N" }

def c2l : List Listing := [c2D, c2A, c2B, c2X, c2Z, c2Y]

/-- Abbreviation: one listing of the cyclic input, rated with its stats. -/
def c2r (x : Listing) : RatedListing :=
  rateOne (medianPPSOf c2l) (medianPriceOf c2l) (nbStatsOf c2l) x

theorem c2hPPS : allPPSOf c2l = [100, 100, 101, 102] := by
  norm_num [allPPSOf, withPPSOf, jsPos, jsSortBy, insertByCmp, numCmp,
    c2l, c2D, c2A, c2B, c2X, c2Z, c2Y]

theorem c2hPct50 : percentile [100, 100, 101, 102] 50 = 201 / 2 := by
  rw [percentile_interp _ _ 1 (by decide) (by norm_num) (by norm_num [Int.ceil_eq_iff])]
  norm_num [List.getD_cons_zero, List.getD_cons_succ]

theorem c2hM : medianPPSOf c2l = some (201 / 2) := by
  unfold medianPPSOf
  rw [c2hPPS, if_neg (by decide), c2hPct50]

theorem c2hPrices : allPricesOf c2l = [10, 100, 112, 120] := by
  norm_num [allPricesOf, withPriceOf, jsPos, jsSortBy, insertByCmp, numCmp,
    c2l, c2D, c2A, c2B, c2X, c2Z, c2Y]

theorem c2hPct50P : percentile [10, 100, 112, 120] 50 = 106 := by
  rw [percentile_interp _ _ 1 (by decide) (by norm_num) (by norm_num [Int.ceil_eq_iff])]
  norm_num [List.getD_cons_zero, List.getD_cons_succ]

theorem c2hP : medianPriceOf c2l = 106 := by
  unfold medianPriceOf
  rw [c2hPrices, c2hPct50P]

theorem c2hVals :
    ((withPPSOf c2l).filter (fun l => l.neighborhood = "N")).map
      (fun l => l.pricePerSqm.getD 0) = [100, 100, 102, 101] := by
  decide

theorem c2hSorted : jsSortBy numCmp [100, 100, 102, 101] = ([100, 100, 101, 102] : List ℚ) := by
  norm_num [jsSortBy, insertByCmp, numCmp]

theorem c2hPct25 : percentile [100, 100, 101, 102] 25 = 100 := by
  rw [percentile_interp _ _ 0 (by decide) (by norm_num) (by norm_num [Int.ceil_eq_iff])]
  norm_num [List.getD_cons_zero, List.getD_cons_succ]

theorem c2hNB : nbStatsOf c2l "N" = some ⟨201 / 2, 100, 4⟩ := by
  unfold nbStatsOf
  dsimp only
  rw [c2hVals, if_neg (by decide), c2hSorted, c2hPct50, c2hPct25]
  rfl

theorem c2sD : score1 (some (201 / 2)) 106 (nbStatsOf c2l) c2D = 8 := by
  norm_num [score1, c2D, jsPos, jsTruthy, priceLadder, min_def, max_def]

theorem c2sA : score1 (some (201 / 2)) 106 (nbStatsOf c2l) c2A = 6 := by
  norm_num [score1, c2A, jsPos, jsTruthy, ppsLadder, c2hNB, min_def, max_def]

theorem c2sB : score1 (some (201 / 2)) 106 (nbStatsOf c2l) c2B = 6 := by
  norm_num [score1, c2B, jsPos, jsTruthy, ppsLadder, c2hNB, min_def, max_def]

theorem c2sX : score1 (some (201 / 2)) 106 (nbStatsOf c2l) c2X = 5 := by
  norm_num [score1, c2X, jsPos, jsTruthy, ppsLadder, c2hNB, min_def, max_def]

theorem c2sZ : score1 (some (201 / 2)) 106 (nbStatsOf c2l) c2Z = 5 := by
  norm_num [score1, c2Z, jsPos, jsTruthy, priceLadder, min_def, max_def]

theorem c2sY : score1 (some (201 / 2)) 106 (nbStatsOf c2l) c2Y = 5 := by
  norm_num [score1, c2Y, jsPos, jsTruthy, ppsLadder, c2hNB, min_def, max_def]

/-- `listingCmp` on two listings rated against the same statistics,
unfolded to scores and raw fields. -/
theorem listingCmp_rateOne (m : Option ℚ) (mp : ℚ) (nb : String → Option NbStats)
    (a b : Listing) :
    listingCmp (rateOne m mp nb a) (rateOne m mp nb b) =
      (if score1 m mp nb b ≠ score1 m mp nb a
       then ((score1 m mp nb b : ℚ) - (score1 m mp nb a : ℚ))
       else if jsTruthy a.pricePerSqm && jsTruthy b.pricePerSqm then
         a.pricePerSqm.getD 0 - b.pricePerSqm.getD 0
       else if jsTruthy a.price && jsTruthy b.price then
         a.price.getD 0 - b.price.getD 0
       else 0) := rfl

theorem insertByCmp_cons_of_le {cmp : α → α → ℚ} {x y : α} {ys : List α}
    (h : cmp x y ≤ 0) : insertByCmp cmp x (y :: ys) = x :: y :: ys := by
  rw [insertByCmp, if_pos h]

theorem c2cZY : listingCmp (c2r c2Z) (c2r c2Y) ≤ 0 := by
  unfold c2r
  rw [listingCmp_rateOne, c2hM, c2hP, c2sZ, c2sY]
  norm_num [c2Z, c2Y, jsTruthy]

theorem c2cXZ : listingCmp (c2r c2X) (c2r c2Z) ≤ 0 := by
  unfold c2r
  rw [listingCmp_rateOne, c2hM, c2hP, c2sX, c2sZ]
  norm_num [c2X, c2Z, jsTruthy]

theorem c2cBX : listingCmp (c2r c2B) (c2r c2X) ≤ 0 := by
  unfold c2r
  rw [listingCmp_rateOne, c2hM, c2hP, c2sB, c2sX]
  norm_num

theorem c2cAB : listingCmp (c2r c2A) (c2r c2B) ≤ 0 := by
  unfold c2r
  rw [listingCmp_rateOne, c2hM, c2hP, c2sA, c2sB]
  norm_num [c2A, c2B, jsTruthy]

theorem c2cDA : listingCmp (c2r c2D) (c2r c2A) ≤ 0 := by
  unfold c2r
  rw [listingCmp_rateOne, c2hM, c2hP, c2sD, c2sA]
  norm_num

theorem c2hList : ratedSeq c2l = [c2r c2D, c2r c2A, c2r c2B, c2r c2X, c2r c2Z, c2r c2Y] := rfl

theorem c2hOut : rateListings c2l = ratedSeq c2l := by
  rw [rateListings_main (by decide) (by decide), c2hList]
  have h1 : jsSortBy listingCmp [c2r c2Z, c2r c2Y] = [c2r c2Z, c2r c2Y] := by
    show insertByCmp listingCmp (c2r c2Z) [c2r c2Y] = _
    exact insertByCmp_cons_of_le c2cZY
  have h2 : jsSortBy listingCmp [c2r c2X, c2r c2Z, c2r c2Y] = [c2r c2X, c2r c2Z, c2r c2Y] := by
    show insertByCmp listingCmp (c2r c2X) (jsSortBy listingCmp [c2r c2Z, c2r c2Y]) = _
    rw [h1]
    exact insertByCmp_cons_of_le c2cXZ
  have h3 : jsSortBy listingCmp [c2r c2B, c2r c2X, c2r c2Z, c2r c2Y]
      = [c2r c2B, c2r c2X, c2r c2Z, c2r c2Y] := by
    show insertByCmp listingCmp (c2r c2B) (jsSortBy listingCmp [c2r c2X, c2r c2Z, c2r c2Y]) = _
    rw [h2]
    exact insertByCmp_cons_of_le c2cBX
  have h4 : jsSortBy listingCmp [c2r c2A, c2r c2B, c2r c2X, c2r c2Z, c2r c2Y]
      = [c2r c2A, c2r c2B, c2r c2X, c2r c2Z, c2r c2Y] := by
    show insertByCmp listingCmp (c2r c2A)
      (jsSortBy listingCmp [c2r c2B, c2r c2X, c2r c2Z, c2r c2Y]) = _
    rw [h3]
    exact insertByCmp_cons_of_le c2cAB
  show insertByCmp listingCmp (c2r c2D)
    (jsSortBy listingCmp [c2r c2A, c2r c2B, c2r c2X, c2r c2Z, c2r c2Y]) = _
  rw [h4]
  exact insertByCmp_cons_of_le c2cDA

/-- **C2 (counterexample).**  The claimed output order fails: on an input
with no positively-priced listing the output is the unsorted rated input
(first refutation: two listings with descending `pricePerSqm` keep their
order at equal rating); and on the main path the comparator is
intransitive for mixed `pricePerSqm`/`price` presence, so the claim's
position-pair constraints become cyclic and the engine's output violates
the `pricePerSqm` ascending tie-break at positions 3 and 5 (second
refutation). -/
theorem c2_counterexample : ¬ c2Claim [c2P5, c2P3] ∧ ¬ c2Claim c2l := by
  constructor
  · intro hcl
    have h := (hcl 0 1 (by norm_num) (by decide)).2 (by decide)
    exact absurd h (by decide)
  · intro hcl
    have h := hcl 3 5 (by norm_num) (by rw [c2hOut]; decide)
    have heq : ((rateListings c2l).getD 3 dummyRated).rating =
        ((rateListings c2l).getD 5 dummyRated).rating := by
      rw [c2hOut]
      show score1 (medianPPSOf c2l) (medianPriceOf c2l) (nbStatsOf c2l) c2X =
        score1 (medianPPSOf c2l) (medianPriceOf c2l) (nbStatsOf c2l) c2Y
      rw [c2hM, c2hP, c2sX, c2sY]
    have htie := h.2 heq
    rw [c2hOut] at htie
    exact absurd htie (by decide)

/-- **C2 (amended).**  On the main path (non-empty input containing a
positively-priced listing) the output of `rateListings` is a permutation
of the rated input sequence, sorted by rating descending as a global
pairwise property; every adjacent output pair is ordered by the source
comparator (so the pps/price tie-breaks hold between neighbours); and
the sort is stable in the keyed sense: sorting the position-tagged rated
sequence yields the same order, with comparator-equal adjacent pairs in
strictly increasing input position.  The tie-break order of the original
claim cannot hold between arbitrary (non-adjacent) positions, and on the
no-price path the output is not sorted at all. -/
theorem c2_amended_sorted (l : List Listing) (h0 : l ≠ []) (h1 : withPriceOf l ≠ []) :
    (rateListings l).Perm (ratedSeq l) ∧
    (rateListings l).Pairwise (fun a b => b.rating ≤ a.rating) ∧
    (rateListings l).Chain' (fun a b => listingCmp a b ≤ 0) ∧
    (jsSortBy (fun a b => listingCmp a.2 b.2) ((ratedSeq l).enumFrom 0)).map Prod.snd
      = rateListings l ∧
    (jsSortBy (fun a b => listingCmp a.2 b.2) ((ratedSeq l).enumFrom 0)).Chain'
      (fun a b => listingCmp a.2 b.2 = 0 → a.1 < b.1) := by
  rw [rateListings_main h0 h1]
  refine ⟨jsSortBy_perm _ _, ?_, ?_, ?_, ?_⟩
  · exact @pairwise_jsSortBy _ (fun a b => b.rating ≤ a.rating) listingCmp
      (fun a b c hab hbc => le_trans hbc hab)
      (fun a b h => rating_le_of_listingCmp_le h)
      (fun a b h => rating_le_of_listingCmp_not_le h)
      (ratedSeq l)
  · exact chain'_jsSortBy listingCmp (fun a b h => listingCmp_neg_le h) (ratedSeq l)
  · rw [map_jsSortBy Prod.snd listingCmp ((ratedSeq l).enumFrom 0), enumFrom_map_snd]
  · exact chain'_stable_jsSortBy_enumFrom listingCmp
      (fun a b h => listingCmp_pos_ne_zero h) (ratedSeq l) 0

def c2wL : Listing := { id := "w", price := some 5 }

theorem c2_witness : (rateListings [c2wL]).Perm (ratedSeq [c2wL]) :=
  (c2_amended_sorted [c2wL] (by decide) (by decide)).1

/-! ## C8 — exact-ratio scores -/

/-- A listing priced at exactly 0.4× a positive median €/m² scores 10:
the ladder assigns 10 and neither bonus can exceed the cap. -/
theorem score1_at_04 (m mp : ℚ) (nb : String → Option NbStats) (x : Listing)
    (hm : 0 < m) (hx : x.pricePerSqm = some (0.4 * m)) :
    score1 (some m) mp nb x = 10 := by
  have hm' : m ≠ 0 := ne_of_gt hm
  have hcond : (jsPos x.pricePerSqm && jsTruthy (some m)) = true := by
    rw [hx]
    simp only [jsPos, jsTruthy, Bool.and_eq_true, decide_eq_true_eq]
    exact ⟨mul_pos (by norm_num) hm, hm'⟩
  unfold score1
  dsimp only
  rw [if_pos hcond, hx]
  simp only [Option.getD_some]
  rw [mul_div_assoc, div_self hm', mul_one,
    show ppsLadder 0.4 = 10 from by norm_num [ppsLadder]]
  cases hnb2 : nb x.neighborhood <;> simp only [hnb2] <;> split_ifs <;> decide

/-- A listing priced at exactly the positive median €/m² scores 6,
provided neither the neighborhood bonus nor the land bonus fires: the
land-bonus proviso only excludes the bonus itself, so land over 500 m²
priced at 100 or more € per land m² is still allowed. -/
theorem score1_at_median (m mp : ℚ) (nb : String → Option NbStats) (x : Listing)
    (hm : 0 < m) (hx : x.pricePerSqm = some m)
    (hnb : ∀ st, nb x.neighborhood = some st → st.median ≠ 0 → ¬(m / st.median ≤ 0.6))
    (hland : (jsTruthy x.landSqm && decide (500 < x.landSqm.getD 0) && jsTruthy x.price)
        = true →
      ¬(x.price.getD 0 / x.landSqm.getD 0 < 100)) :
    score1 (some m) mp nb x = 6 := by
  have hm' : m ≠ 0 := ne_of_gt hm
  have hcond : (jsPos x.pricePerSqm && jsTruthy (some m)) = true := by
    rw [hx]
    simp only [jsPos, jsTruthy, Bool.and_eq_true, decide_eq_true_eq]
    exact ⟨hm, hm'⟩
  unfold score1
  dsimp only
  rw [if_pos hcond, hx]
  simp only [Option.getD_some]
  rw [div_self hm', show ppsLadder 1 = 6 from by norm_num [ppsLadder]]
  by_cases hc : (jsTruthy x.landSqm && decide (500 < x.landSqm.getD 0) && jsTruthy x.price)
      = true
  · rw [if_pos hc, if_neg (hland hc)]
    cases hnb2 : nb x.neighborhood with
    | none => simp only [hnb2]; decide
    | some st =>
      simp only [hnb2]
      by_cases hmed : st.median ≠ 0
      · rw [if_pos hmed, if_neg (hnb st hnb2 hmed)]
        decide
      · rw [if_neg hmed]
        decide
  · rw [if_neg hc]
    cases hnb2 : nb x.neighborhood with
    | none => simp only [hnb2]; decide
    | some st =>
      simp only [hnb2]
      by_cases hmed : st.median ≠ 0
      · rw [if_pos hmed, if_neg (hnb st hnb2 hmed)]
        decide
      · rw [if_neg hmed]
        decide

def c8cA : Listing := { id := "cA", pricePerSqm := some 80, neighborhood := "N" }
def c8cB : Listing := { id := "cB", pricePerSqm := some 90, neighborhood := "N" }
def c8cb0 : Listing :=
  { id := "cM", pricePerSqm := some 100, price := some 50000, landSqm := some 600,
    neighborhood := "N" }
def c8cC : Listing := { id := "cC", pricePerSqm := some 110, neighborhood := "N" }
def c8cD : Listing := { id := "cD", pricePerSqm := some 120, neighborhood := "N" }
def c8cl : List Listing := [c8cA, c8cB, c8cb0, c8cC, c8cD]

theorem c8chPPS : allPPSOf c8cl = [80, 90, 100, 110, 120] := by
  norm_num [allPPSOf, withPPSOf, jsPos, jsSortBy, insertByCmp, numCmp,
    c8cl, c8cA, c8cB, c8cb0, c8cC, c8cD]

theorem c8chM : medianPPSOf c8cl = some 100 := by
  unfold medianPPSOf
  rw [c8chPPS, if_neg (by decide),
    percentile_at_nat [80, 90, 100, 110, 120] 50 2 (by decide) (by norm_num)]
  rfl

theorem c8chVals :
    ((withPPSOf c8cl).filter (fun l => l.neighborhood = "N")).map
      (fun l => l.pricePerSqm.getD 0) = [80, 90, 100, 110, 120] := by
  decide

theorem c8chSorted : jsSortBy numCmp [80, 90, 100, 110, 120]
    = ([80, 90, 100, 110, 120] : List ℚ) := by
  norm_num [jsSortBy, insertByCmp, numCmp]

theorem c8chNB : nbStatsOf c8cl "N" = some ⟨100, 90, 5⟩ := by
  unfold nbStatsOf
  dsimp only
  rw [c8chVals, if_neg (by decide), c8chSorted,
    percentile_at_nat [80, 90, 100, 110, 120] 50 2 (by decide) (by norm_num),
    percentile_at_nat [80, 90, 100, 110, 120] 25 1 (by decide) (by norm_num)]
  rfl

theorem c8cs7 (mp : ℚ) : score1 (some 100) mp (nbStatsOf c8cl) c8cb0 = 7 := by
  norm_num [score1, c8cb0, jsPos, jsTruthy, ppsLadder, c8chNB, min_def, max_def]

/-- **C8 (counterexample).**  Five listings, all with positive €/m², one
of them at exactly 1.0× the global median €/m² — but carrying more than
500 m² of land priced under 100 €/m² of land, so the land bonus lifts
its final rating to 7, not the claimed 6. -/
theorem c8_counterexample :
    c8cl.length = 5 ∧
    (∀ x ∈ c8cl, jsPos x.pricePerSqm = true) ∧
    medianPPSOf c8cl = some 100 ∧
    c8cb0.pricePerSqm = some (1 * 100) ∧
    ∃ r ∈ rateListings c8cl, r.toListing = c8cb0 ∧ r.rating = 7 := by
  refine ⟨rfl, by decide, c8chM, by norm_num [c8cb0], ?_⟩
  refine ⟨rateOne (medianPPSOf c8cl) (medianPriceOf c8cl) (nbStatsOf c8cl) c8cb0,
    ?_, rfl, ?_⟩
  · rw [rateListings_main (by decide) (by decide)]
    exact mem_jsSortBy.mpr (List.mem_map_of_mem _ (by decide))
  · show score1 (medianPPSOf c8cl) (medianPriceOf c8cl) (nbStatsOf c8cl) c8cb0 = 7
    rw [c8chM]
    exact c8cs7 _

/-- **C8 (amended).**  In a batch of 5 listings, all with positive €/m²
and at least one with a positive total price, a listing at exactly 0.4×
the (positive) global median €/m² is rated 10 unconditionally; a listing
at exactly 1.0× the global median is rated 6 provided the neighborhood
bonus does not fire for it (its €/m² is not ≤ 0.6× its neighborhood
median) and the land bonus does not fire for it: whenever it does hold
land over 500 m² together with a price, that price is not under 100 €
per land m². -/
theorem c8_amended_exact_ratios (l : List Listing) (m : ℚ) (a b : Listing)
    (hlen : l.length = 5)
    (hall : ∀ x ∈ l, jsPos x.pricePerSqm = true)
    (hvp : withPriceOf l ≠ [])
    (hmed : medianPPSOf l = some m) (hmpos : 0 < m)
    (ha : a ∈ l) (happs : a.pricePerSqm = some (0.4 * m))
    (hb : b ∈ l) (hbpps : b.pricePerSqm = some m)
    (hnb : ∀ st, nbStatsOf l b.neighborhood = some st → st.median ≠ 0 →
      ¬(m / st.median ≤ 0.6))
    (hland : (jsTruthy b.landSqm && decide (500 < b.landSqm.getD 0) && jsTruthy b.price)
        = true →
      ¬(b.price.getD 0 / b.landSqm.getD 0 < 100)) :
    (∃ r ∈ rateListings l, r.toListing = a ∧ r.rating = 10) ∧
    (∃ r ∈ rateListings l, r.toListing = b ∧ r.rating = 6) ∧
    (∀ r ∈ rateListings l, r.toListing = a → r.rating = 10) ∧
    (∀ r ∈ rateListings l, r.toListing = b → r.rating = 6) := by
  have h0 : l ≠ [] := by
    intro he
    rw [he] at hlen
    exact absurd hlen (by decide)
  have hruleA : ∀ x : Listing, x = a →
      score1 (medianPPSOf l) (medianPriceOf l) (nbStatsOf l) x = 10 := by
    intro x hx
    rw [hmed, hx]
    exact score1_at_04 m (medianPriceOf l) (nbStatsOf l) a hmpos happs
  have hruleB : ∀ x : Listing, x = b →
      score1 (medianPPSOf l) (medianPriceOf l) (nbStatsOf l) x = 6 := by
    intro x hx
    rw [hmed, hx]
    exact score1_at_median m (medianPriceOf l) (nbStatsOf l) b hmpos hbpps hnb hland
  rw [rateListings_main h0 hvp]
  refine ⟨⟨rateOne (medianPPSOf l) (medianPriceOf l) (nbStatsOf l) a,
      mem_jsSortBy.mpr (List.mem_map_of_mem _ ha), rfl, hruleA a rfl⟩,
    ⟨rateOne (medianPPSOf l) (medianPriceOf l) (nbStatsOf l) b,
      mem_jsSortBy.mpr (List.mem_map_of_mem _ hb), rfl, hruleB b rfl⟩,
    ?_, ?_⟩
  · intro r hr hra
    rcases List.mem_map.mp (mem_jsSortBy.mp hr) with ⟨x, _, rfl⟩
    exact hruleA x hra
  · intro r hr hrb
    rcases List.mem_map.mp (mem_jsSortBy.mp hr) with ⟨x, _, rfl⟩
    exact hruleB x hrb

def c8wA : Listing := { id := "wA", pricePerSqm := some 40, neighborhood := "N" }
def c8wB : Listing := { id := "wB", pricePerSqm := some 90, neighborhood := "N" }
def c8wM : Listing :=
  { id := "wM", pricePerSqm := some 100, price := some 100000, neighborhood := "N" }
def c8wC : Listing := { id := "wC", pricePerSqm := some 110, neighborhood := "N" }
def c8wD : Listing := { id := "wD", pricePerSqm := some 120, neighborhood := "N" }
def c8wl : List Listing := [c8wA, c8wB, c8wM, c8wC, c8wD]

theorem c8whPPS : allPPSOf c8wl = [40, 90, 100, 110, 120] := by
  norm_num [allPPSOf, withPPSOf, jsPos, jsSortBy, insertByCmp, numCmp,
    c8wl, c8wA, c8wB, c8wM, c8wC, c8wD]

theorem c8whM : medianPPSOf c8wl = some 100 := by
  unfold medianPPSOf
  rw [c8whPPS, if_neg (by decide),
    percentile_at_nat [40, 90, 100, 110, 120] 50 2 (by decide) (by norm_num)]
  rfl

theorem c8whVals :
    ((withPPSOf c8wl).filter (fun l => l.neighborhood = "N")).map
      (fun l => l.pricePerSqm.getD 0) = [40, 90, 100, 110, 120] := by
  decide

theorem c8whSorted : jsSortBy numCmp [40, 90, 100, 110, 120]
    = ([40, 90, 100, 110, 120] : List ℚ) := by
  norm_num [jsSortBy, insertByCmp, numCmp]

theorem c8whNB : nbStatsOf c8wl "N" = some ⟨100, 90, 5⟩ := by
  unfold nbStatsOf
  dsimp only
  rw [c8whVals, if_neg (by decide), c8whSorted,
    percentile_at_nat [40, 90, 100, 110, 120] 50 2 (by decide) (by norm_num),
    percentile_at_nat [40, 90, 100, 110, 120] 25 1 (by decide) (by norm_num)]
  rfl

theorem c8_witness :
    (∃ r ∈ rateListings c8wl, r.toListing = c8wA ∧ r.rating = 10) ∧
    (∃ r ∈ rateListings c8wl, r.toListing = c8wM ∧ r.rating = 6) := by
  have h := c8_amended_exact_ratios c8wl 100 c8wA c8wM rfl (by decide) (by decide)
    c8whM (by norm_num) (by decide) (by norm_num [c8wA]) (by decide) rfl
    (fun st hst hmed => by
      have hst2 : nbStatsOf c8wl "N" = some st := hst
      rw [c8whNB] at hst2
      rw [← Option.some.inj hst2]
      norm_num)
    (fun hc => absurd hc (by decide))
  exact ⟨h.1, h.2.1⟩
